import Mathlib

/-!
Verification development for the story-booker generation service.

The definitions below are a shallow embedding of the orchestration core of
the service: the data model (src/src/models.py), the character consistency
logic (src/services/character_service.py), the author agent beat-count law
(src/services/author_agent.py), the LLM provider fallback loop
(src/services/llm_client.py), the background job pipeline
(src/src/main.py, process_storybook_job) and the job submission endpoint
(src/src/main.py, generate_storybook).

External effects (LLM calls, image generation, file system) are modelled as
an explicit World of call outcomes; all internal decision logic is
translated directly from the Python source.  Python floating point scores
are embedded as exact fractions of naturals (the operands are small enough
that Python float arithmetic is exact or cannot cross the decision
thresholds involved); Python int() of nonnegative small quotients is
embedded as natural division.
-/

/-! ## String utilities mirroring the Python primitives used by the source -/

/-- Python `needle in hay` substring containment on strings. -/
def strIn (needle hay : String) : Bool :=
  List.range (hay.length + 1) |>.any (fun i => (hay.toList.drop i).take needle.length = needle.toList)

/-- Python regex word character class for ASCII input: `[A-Za-z0-9_]`. -/
def isWordChar (c : Char) : Bool :=
  c.isAlphanum || c = '_'

/-- Wordness of the character at index `i`, out-of-range counting as non-word. -/
def wordAt (s : List Char) (i : Nat) : Bool :=
  match s.get? i with
  | some c => isWordChar c
  | none => false

/-- Python regex word boundary at position `i` of `s` (between `i - 1` and `i`). -/
def isBoundary (s : List Char) (i : Nat) : Bool :=
  (if i = 0 then false else wordAt s (i - 1)) != wordAt s i

/-- Python `re.search(r"\b" + re.escape(pat) + r"\b", text)` viewed as a Boolean:
true when `pat` occurs in `text` delimited by word boundaries. -/
def wordBoundarySearch (text pat : String) : Bool :=
  let s := text.toList
  let p := pat.toList
  List.range (s.length + 1) |>.any (fun i =>
    ((s.drop i).take p.length = p) && isBoundary s i && isBoundary s (i + p.length))

/-- Tokenization along Python `re.findall(r"\b\w+\b", s)` for ASCII input:
the maximal runs of word characters. -/
def wordTokens (s : String) : List String :=
  let rec go : List Char → List Char → List String
    | [], cur => if cur = [] then [] else [String.mk cur.reverse]
    | c :: rest, cur =>
      if isWordChar c then go rest (c :: cur)
      else if cur = [] then go rest []
      else String.mk cur.reverse :: go rest []
  go s.toList []

/-- Python `dict.fromkeys` based de-duplication: keep the first occurrence,
preserve order. -/
def dedupKeepFirst (l : List String) : List String :=
  l.foldl (fun acc x => if x ∈ acc then acc else acc ++ [x]) []

/-- Python `str.lower()` for ASCII input, as a structurally recursive map
(the library `String.toLower` is defined by well-founded recursion and does
not evaluate inside the kernel). -/
def strLower (s : String) : String :=
  ⟨s.data.map Char.toLower⟩

/-! ## Data model (src/src/models.py) -/

/-- StoryBeat model: one page of story text plus illustration data. -/
structure StoryBeat where
  text : String
  visual_description : String
  sticker_subjects : List String
deriving Repr, DecidableEq

/-- Character model.  `color_palette` is an association list standing for the
optional Python dict; it is carried along but never drives control flow in
the embedded logic. -/
structure Character where
  name : String
  species : Option String
  physical_description : String
  key_features : List String
  color_palette : List (String × Option String)
  reference_image_path : Option String
  seed : Option Nat
  refined_prompt : Option String
deriving Repr, DecidableEq

/-- StoryBook model. -/
structure StoryBook where
  title : String
  beats : List StoryBeat
  characters : List Character
  synopsis : Option String
  cover_image_path : Option String
  author_bio : Option String
deriving Repr, DecidableEq

/-- JobStatus record (the mutable job registry entry).  The `status` field is
a plain string in the source, not an enum. -/
structure JobRecord where
  job_id : String
  status : String
  file_path : Option String
  file_paths : Option (List (String × String))
  progress : Nat
  error_message : Option String
  current_step : Option String
deriving Repr, DecidableEq

/-! ## Exact fractional scores

`match_characters_by_similarity` accumulates a Python float score built from
integer point weights and two Jaccard ratios.  We embed the score as an exact
nonnegative fraction `num / den`; comparisons are by cross multiplication. -/

/-- A nonnegative fraction of naturals; `den` is always positive for the
fractions produced by the scoring code. -/
structure Frac where
  num : Nat
  den : Nat
deriving Repr, DecidableEq

/-- Fraction comparison, `x ≤ y`, by cross multiplication. -/
def Frac.fle (x y : Frac) : Bool :=
  decide (x.num * y.den ≤ y.num * x.den)

/-- Fraction comparison, `x < y`, by cross multiplication. -/
def Frac.flt (x y : Frac) : Bool :=
  decide (x.num * y.den < y.num * x.den)

/-- The rational value of a fraction. -/
def Frac.toRat (x : Frac) : ℚ :=
  (x.num : ℚ) / (x.den : ℚ)

/-! ## Character service (src/services/character_service.py) -/

/-- Stop word list of `match_characters_by_similarity`. -/
def stopWords : List String :=
  ["the", "a", "an", "is", "are", "with", "and", "or", "but", "has", "have",
   "had", "was", "were", "be", "been", "being"]

/-- Description keyword set: tokens of the lowercased description of length
strictly greater than 3 that are not stop words (lines 619-623 and 656-660 of
character_service.py). -/
def keywordSet (desc : String) : Finset String :=
  ((wordTokens (strLower desc)).filter
    (fun w => decide (3 < w.length) && decide (w ∉ stopWords))).toFinset

/-- Species normalization: Python truthiness makes an absent or empty species
skip the species comparison; otherwise it is lowercased. -/
def normSpecies (sp : Option String) : Option String :=
  match sp with
  | some s => if s = "" then none else some (strLower s)
  | none => none

/-- Lowercased key-feature set of a character. -/
def featureSet (c : Character) : Finset String :=
  (c.key_features.map strLower).toFinset

/-- The weighted similarity score of `match_characters_by_similarity`
(lines 625-666): species exact match 40 points, species substring 30,
name exact 30, name substring 15, key-feature Jaccard times 20,
description-keyword Jaccard times 10, as an exact fraction. -/
def similarityScore (e s : Character) : Frac :=
  let eSp := normSpecies e.species
  let sSp := normSpecies s.species
  let speciesPts : Nat :=
    match eSp, sSp with
    | some a, some b =>
      if a = b then 40
      else if strIn a b || strIn b a then 30
      else 0
    | _, _ => 0
  let eN := strLower e.name
  let sN := strLower s.name
  let namePts : Nat :=
    if eN = sN then 30
    else if strIn eN sN || strIn sN eN then 15
    else 0
  let eF := featureSet e
  let sF := featureSet s
  let fPair : Nat × Nat :=
    if 0 < eF.card ∧ 0 < sF.card then ((eF ∩ sF).card, (eF ∪ sF).card)
    else (0, 1)
  let eD := keywordSet e.physical_description
  let sD := keywordSet s.physical_description
  let dPair : Nat × Nat :=
    if 0 < eD.card ∧ 0 < sD.card then ((eD ∩ sD).card, (eD ∪ sD).card)
    else (0, 1)
  ⟨(speciesPts + namePts) * (fPair.2 * dPair.2)
     + 20 * fPair.1 * dPair.2 + 10 * dPair.1 * fPair.2,
   fPair.2 * dPair.2⟩

/-- The best-match fold of `match_characters_by_similarity` (lines 608-671):
track the best scoring stored character, strict improvement only. -/
def matchFold (e : Character) (stored : List Character) : Option Character × Frac :=
  stored.foldl
    (fun acc s =>
      let sc := similarityScore e s
      if acc.2.flt sc then (some s, sc) else acc)
    (none, ⟨0, 1⟩)

/-- `match_characters_by_similarity(extracted, stored)` (lines 593-677):
return the best scoring stored character when the best score reaches the
threshold 40, else nothing. -/
def match_characters_by_similarity (e : Character) (stored : List Character) :
    Option Character :=
  if stored.isEmpty then none
  else
    let best := matchFold e stored
    if (Frac.mk 40 1).fle best.2 then best.1 else none

/-! ## Deterministic character seed (character_service.py line 499)

`seed = int(hashlib.md5(character.name.encode()).hexdigest()[:8], 16) % (2**31)`.
MD5 is embedded in full below over natural numbers reduced mod `2 ^ 32`. -/

namespace MD5

/-- Modulus for 32 bit words. -/
def m32 : Nat := 4294967296

/-- Bitwise complement inside 32 bits. -/
def compl32 (x : Nat) : Nat := Nat.xor x 4294967295

/-- Left rotation of a 32 bit word by `s` places. -/
def rotl (x s : Nat) : Nat :=
  (x % 2 ^ (32 - s)) * 2 ^ s + x / 2 ^ (32 - s)

/-- Round constants `K[i] = floor(2^32 * abs(sin(i + 1)))`. -/
def K : List Nat :=
  [3614090360, 3905402710, 606105819, 3250441966, 4118548399, 1200080426,
   2821735955, 4249261313, 1770035416, 2336552879, 4294925233, 2304563134,
   1804603682, 4254626195, 2792965006, 1236535329, 4129170786, 3225465664,
   643717713, 3921069994, 3593408605, 38016083, 3634488961, 3889429448,
   568446438, 3275163606, 4107603335, 1163531501, 2850285829, 4243563512,
   1735328473, 2368359562, 4294588738, 2272392833, 1839030562, 4259657740,
   2763975236, 1272893353, 4139469664, 3200236656, 681279174, 3936430074,
   3572445317, 76029189, 3654602809, 3873151461, 530742520, 3299628645,
   4096336452, 1126891415, 2878612391, 4237533241, 1700485571, 2399980690,
   4293915773, 2240044497, 1873313359, 4264355552, 2734768916, 1309151649,
   4149444226, 3174756917, 718787259, 3951481745]

/-- Per-round left rotation amounts. -/
def S : List Nat :=
  [7, 12, 17, 22, 7, 12, 17, 22, 7, 12, 17, 22, 7, 12, 17, 22,
   5, 9, 14, 20, 5, 9, 14, 20, 5, 9, 14, 20, 5, 9, 14, 20,
   4, 11, 16, 23, 4, 11, 16, 23, 4, 11, 16, 23, 4, 11, 16, 23,
   6, 10, 15, 21, 6, 10, 15, 21, 6, 10, 15, 21, 6, 10, 15, 21]

/-- UTF-8 encoding of one code point, as byte values. -/
def utf8Bytes (c : Nat) : List Nat :=
  if c < 128 then [c]
  else if c < 2048 then [192 + c / 64, 128 + c % 64]
  else if c < 65536 then [224 + c / 4096, 128 + c / 64 % 64, 128 + c % 64]
  else [240 + c / 262144, 128 + c / 4096 % 64, 128 + c / 64 % 64, 128 + c % 64]

/-- Byte sequence of a string, mirroring Python `str.encode()`. -/
def strBytes (s : String) : List Nat :=
  (s.toList.map (fun c => utf8Bytes c.toNat)).flatten

/-- MD5 padding: append `0x80`, zero bytes up to 56 mod 64, then the bit
length as 8 little-endian bytes. -/
def pad (b : List Nat) : List Nat :=
  let len := b.length
  let z := (120 - (len + 1) % 64) % 64
  let bits := (8 * len) % 2 ^ 64
  b ++ [128] ++ List.replicate z 0 ++ ((List.range 8).map (fun i => bits / 2 ^ (8 * i) % 256))

/-- Little-endian 32 bit word `g` of a 64 byte block. -/
def word (blk : List Nat) (g : Nat) : Nat :=
  blk.getD (4 * g) 0 + 256 * blk.getD (4 * g + 1) 0
    + 65536 * blk.getD (4 * g + 2) 0 + 16777216 * blk.getD (4 * g + 3) 0

/-- One MD5 compression step for round `i` on state `(A, B, C, D)`. -/
def round (blk : List Nat) (t : Nat × Nat × Nat × Nat) (i : Nat) : Nat × Nat × Nat × Nat :=
  let A := t.1
  let B := t.2.1
  let C := t.2.2.1
  let D := t.2.2.2
  let f :=
    if i < 16 then Nat.lor (Nat.land B C) (Nat.land (compl32 B) D)
    else if i < 32 then Nat.lor (Nat.land B D) (Nat.land C (compl32 D))
    else if i < 48 then Nat.xor B (Nat.xor C D)
    else Nat.xor C (Nat.lor B (compl32 D))
  let g :=
    if i < 16 then i
    else if i < 32 then (5 * i + 1) % 16
    else if i < 48 then (3 * i + 5) % 16
    else (7 * i) % 16
  let f2 := (f + A + K.getD i 0 + word blk g) % m32
  (D, (B + rotl f2 (S.getD i 0)) % m32, B, C)

/-- MD5 compression of one 64 byte block. -/
def processBlock (st : Nat × Nat × Nat × Nat) (blk : List Nat) : Nat × Nat × Nat × Nat :=
  let r := (List.range 64).foldl (round blk) st
  ((st.1 + r.1) % m32, (st.2.1 + r.2.1) % m32,
   (st.2.2.1 + r.2.2.1) % m32, (st.2.2.2 + r.2.2.2) % m32)

/-- MD5 state after consuming all blocks of a padded message. -/
def processAll (msg : List Nat) : Nat × Nat × Nat × Nat :=
  (List.range (msg.length / 64)).foldl
    (fun st j => processBlock st ((msg.drop (64 * j)).take 64))
    (1732584193, 4023233417, 2562383102, 271733878)

/-- The first 8 hex digits of the MD5 hex digest of a string, as a number:
the first 4 digest bytes (the `A` register little-endian) read big-endian,
matching `int(hashlib.md5(s.encode()).hexdigest()[:8], 16)`. -/
def prefix32 (s : String) : Nat :=
  let st := processAll (pad (strBytes s))
  let a := st.1
  a % 256 * 16777216 + a / 256 % 256 * 65536 + a / 65536 % 256 * 256 + a / 16777216 % 256

end MD5

/-- Deterministic seed derived from a character name
(character_service.py line 499). -/
def character_seed (name : String) : Nat :=
  MD5.prefix32 name % 2147483648

/-! ## Author agent beat-count law (src/services/author_agent.py lines 167-184)

The LLM call itself is external; its parsed result (or failure) is an input.
The embedded function applies the beat-count fix-up: exact count is kept,
overlong stories are trimmed to the first `num_pages` beats, short stories
raise. -/

/-- A Python exception reaching the orchestration code: either an
`asyncio.TimeoutError` or an ordinary exception with type name and message. -/
inductive PyExc
  | timeoutErr (msg : String)
  | exc (ty msg : String)
deriving Repr, DecidableEq

/-- Message text of an exception. -/
def PyExc.msg : PyExc → String
  | .timeoutErr m => m
  | .exc _ m => m

/-- `generate_storybook` of the author agent, given the parsed LLM story:
lines 167-184 of author_agent.py.  Failures of the call itself pass through
(the source re-wraps them in RuntimeError; the wrapping is kept). -/
def author_generate_storybook (num_pages : Nat) (llmResult : Except PyExc StoryBook) :
    Except PyExc StoryBook :=
  match llmResult with
  | .error e =>
    match e with
    | .timeoutErr m => .error (.timeoutErr m)
    | .exc ty m => .error (.exc "RuntimeError" ("Error generating storybook: " ++ ty ++ ": " ++ m))
  | .ok sb =>
    if sb.beats.length = num_pages then .ok sb
    else if num_pages < sb.beats.length then .ok { sb with beats := sb.beats.take num_pages }
    else .error (.exc "RuntimeError"
      ("Error generating storybook: LLM generated only " ++ toString sb.beats.length
        ++ " story beats, but " ++ toString num_pages ++ " were requested."))

/-! ## LLM provider fallback loop (src/services/llm_client.py lines 139-220) -/

/-- Outcome of one provider attempt (the body of one loop iteration of
`LLMClient.generate`): success with content, an `asyncio.TimeoutError` from
`asyncio.wait_for`, or an ordinary exception with type and message. -/
inductive GenOutcome
  | success (content : String)
  | timeout
  | failure (ty msg : String)
deriving Repr, DecidableEq

/-- Error delivered by `LLMClient.generate` to its caller. -/
inductive GenError
  | timeoutWrapped (provider : String)
  | verbatim (ty msg : String)
  | allFailed
deriving Repr, DecidableEq

/-- Fallback ordering per primary provider (lines 165-170). -/
def fallback_order (p : String) : List String :=
  if p = "groq" then ["openai", "gpt4all", "mock"]
  else if p = "openai" then ["groq", "gpt4all", "mock"]
  else if p = "gpt4all" then ["groq", "openai", "mock"]
  else if p = "mock" then ["groq", "openai", "gpt4all"]
  else []

/-- The attempt order: primary first, then the fallback order when fallback
is enabled (lines 162-171). -/
def providers_to_try (primary : String) (use_fallback : Bool) : List String :=
  primary :: (if use_fallback then fallback_order primary else [])

/-- The provider loop of `LLMClient.generate` (lines 178-220): `last` is the
final element of the attempt order (the Python code compares each provider
name against `providers_to_try[-1]`).  Returns the providers attempted, in
order, together with the result.  A timeout on the last provider raises a
fresh `TimeoutError` naming the provider; an ordinary exception on the last
provider is re-raised verbatim by a bare `raise`. -/
def llm_generate_go (attempt : String → GenOutcome) (last : String) :
    List String → List String × Except GenError String
  | [] => ([], .error .allFailed)
  | p :: rest =>
    match attempt p with
    | .success s => ([p], .ok s)
    | .timeout =>
      if p = last then ([p], .error (.timeoutWrapped p))
      else
        let r := llm_generate_go attempt last rest
        (p :: r.1, r.2)
    | .failure ty m =>
      if p = last then ([p], .error (.verbatim ty m))
      else
        let r := llm_generate_go attempt last rest
        (p :: r.1, r.2)

/-- `LLMClient.generate`: run the provider loop over the attempt order. -/
def llm_generate (primary : String) (use_fallback : Bool)
    (attempt : String → GenOutcome) : List String × Except GenError String :=
  let ps := providers_to_try primary use_fallback
  llm_generate_go attempt (ps.getLastD "") ps

/-! ## The background job pipeline (src/src/main.py, process_storybook_job)

The job registry entry exists for the whole life of the job (it is created by
the submission endpoint before the task is scheduled and never removed), so
the `if job_id in jobs` guards of the source are always true and each guarded
block becomes one record update.

The run of a job is embedded as the list of states of the job record after
each update.  Each snapshot carries a flag telling whether the running task
reaches an `await` between this update and the next one (or ends): under the
asyncio cooperative scheduler of the source, other tasks - in particular the
status endpoint - can read the record exactly at those points. -/

/-- One observable-or-not snapshot of the job record. -/
structure Snap where
  record : JobRecord
  yieldsAfter : Bool
deriving Repr, DecidableEq

/-- The evolving trace of a job: current record plus all snapshots so far. -/
structure PipeSt where
  record : JobRecord
  trace : List Snap
deriving Repr, DecidableEq

/-- Record an update: replace the record and append a snapshot of it. -/
def pushSnap (st : PipeSt) (r : JobRecord) (y : Bool) : PipeSt :=
  ⟨r, st.trace ++ [⟨r, y⟩]⟩

/-- A `current_step` plus `progress` update (the common guarded block shape). -/
def setStep (st : PipeSt) (step : String) (prog : Nat) (y : Bool) : PipeSt :=
  pushSnap st { st.record with current_step := some step, progress := prog } y

/-- Outcome of loading one stored character (main.py lines 104-116 together
with the storage collaborators): the load may raise, find nothing, or yield a
character plus the optional stored reference image path. -/
inductive LoadOutcome
  | raised (e : PyExc)
  | notFound
  | found (c : Character) (img : Option String)

/-- Outcomes of every external call a job makes, keyed the way the pipeline
issues them.  Story results are the parsed LLM output before the author
agent beat-count fix-up. -/
structure World where
  loadChar : String → LoadOutcome
  storyLLM : Except PyExc StoryBook
  coverGen : Except PyExc String
  extractChars : Except PyExc (List Character)
  pathExists : String → Bool
  refImageGen : String → Except PyExc String
  promptGen : Nat → Except PyExc (Option String)
  imageGen : Nat → Except PyExc String
  langLLM : String → Except PyExc StoryBook
  pdfGen : String → Except PyExc String

/-- The caller-supplied job parameters (the arguments of
`process_storybook_job`; an absent `character_ids` list is the empty list,
matching Python truthiness). -/
structure Inputs where
  job_id : String
  theme : Option String
  num_pages : Nat
  style : Option String
  languages : List String
  character_ids : List String

/-- Load the selected characters from storage (main.py lines 99-116): load
failures and misses are skipped; a stored reference image path, when present,
is written into the loaded character. -/
def loadStored (w : World) (ids : List String) : List Character :=
  ids.foldl
    (fun acc cid =>
      match w.loadChar cid with
      | .raised _ => acc
      | .notFound => acc
      | .found c img =>
        match img with
        | some p => acc ++ [{ c with reference_image_path := some p }]
        | none => acc ++ [c])
    []

/-- One step of the stored-and-extracted merge (main.py lines 243-258): the
extracted character is dropped when `match_characters_by_similarity` finds a
stored match, then dropped when its lowercased name is already a roster name,
else admitted. -/
def rosterStep (stored : List Character) (acc : List Character × List String)
    (e : Character) : List Character × List String :=
  match match_characters_by_similarity e stored with
  | some _ => acc
  | none =>
    if strLower e.name ∈ acc.2 then acc
    else (acc.1 ++ [e], acc.2 ++ [strLower e.name])

/-- The merge of stored and extracted characters (main.py lines 230-258):
stored characters are appended unconditionally, then every extracted
character passes through `rosterStep`.  Returns the roster and the lowercased
names of the stored (selected) characters, which double as the initial roster
name set. -/
def resolveRoster (stored extracted : List Character) :
    List Character × List String :=
  let selected := stored.map (fun c => strLower c.name)
  let r := extracted.foldl (rosterStep stored) (stored, selected)
  (r.1, selected)

/-- Whether the reference-image step skips a character (main.py lines
275-284): selected characters are skipped, as are characters whose stored
reference image path exists on disk. -/
def refSkip (w : World) (selected : List String) (c : Character) : Bool :=
  decide (strLower c.name ∈ selected)
    || (match c.reference_image_path with
        | some p => w.pathExists p
        | none => false)

/-- The reference-image update of one character (main.py lines 286-303): on
success the path is stored and the deterministic seed is kept only when no
seed is present; on failure the character is left as it was (the source only
re-writes `None` over `None`). -/
def refUpdate (w : World) (selected : List String) (c : Character) : Character :=
  if refSkip w selected c then c
  else
    match w.refImageGen c.name with
    | .ok path =>
      { c with
        reference_image_path := some path,
        seed := match c.seed with | some v => some v | none => some (character_seed c.name) }
    | .error _ => c

/-- The reference-image loop over the roster (main.py lines 275-303),
returning the updated roster and the names of the characters for which
generation was attempted. -/
def refGenLoop (w : World) (selected : List String) (chars : List Character) :
    List Character × List String :=
  (chars.map (refUpdate w selected),
   (chars.filter (fun c => ! refSkip w selected c)).map (fun c => c.name))

/-- One beat of `ensure_characters_in_beats` (character_service.py lines
724-773).  `snapshotLower` is the lowercased subject list taken before the
character loop; the running subject list is live. -/
def ensureBeat (chars : List Character) (selectedLower : List String)
    (beatIdx : Nat) (beat : StoryBeat) : StoryBeat :=
  let textLower := strLower beat.text
  let snapshotLower := beat.sticker_subjects.map strLower
  let subjects := chars.foldl
    (fun subs c =>
      let nameLower := strLower c.name
      let speciesLower := (normSpecies c.species)
      let isSelected := nameLower ∈ selectedLower
      let mentioned :=
        if strIn nameLower textLower then wordBoundarySearch textLower nameLower
        else match speciesLower with
          | some sp => strIn sp textLower && wordBoundarySearch textLower sp
          | none => false
      let shouldInclude := mentioned || (isSelected && beatIdx = 0)
      if shouldInclude then
        let alreadyIncluded := subs.any (fun subject =>
          let subjectLower := strLower subject
          (strIn nameLower subjectLower || strIn subjectLower nameLower)
            || (match speciesLower with
                | some sp => strIn sp subjectLower || strIn subjectLower sp
                | none => false))
        if alreadyIncluded then subs
        else
          let toAdd :=
            match speciesLower, c.species with
            | some spLower, some sp =>
              if spLower.length < nameLower.length || spLower ∈ snapshotLower then sp
              else c.name
            | _, _ => c.name
          subs ++ [toAdd]
      else subs)
    beat.sticker_subjects
  { beat with sticker_subjects := subjects }

/-- `ensure_characters_in_beats` (character_service.py lines 698-773): update
every beat in place; the character list itself is untouched. -/
def ensure_characters_in_beats (sb : StoryBook) (chars : List Character)
    (selectedLower : List String) : StoryBook :=
  if chars.isEmpty then sb
  else
    { sb with
      beats := (sb.beats.enum).map (fun p => ensureBeat chars selectedLower p.1 p.2) }

/-- Extra run outputs used to state properties: the language list actually
used, the loaded stored (pinned) characters, the final base storybook when
the story phase succeeded, the final roster, the lowercased selected names,
the cover path, and the names of the characters for which reference-image
generation was attempted. -/
structure Extras where
  languages : List String
  storedChars : List Character
  baseStory : Option StoryBook
  roster : List Character
  selected : List String
  coverPath : Option String
  refAttempted : List String
deriving Repr

/-- The per-beat prompt loop (main.py lines 318-333): one progress update per
beat, then the prompt call; a raise aborts the job. -/
def promptLoop (w : World) (total : Nat) :
    List Nat → PipeSt → PipeSt × Except PyExc (List (Nat × Option String))
  | [], st => (st, .ok [])
  | i :: rest, st =>
    let st1 := setStep st
      ("Generating image prompts for beat " ++ toString i ++ "/" ++ toString total)
      (14 + 16 * (i - 1) / total) true
    match w.promptGen i with
    | .error e => (st1, .error e)
    | .ok bg =>
      match promptLoop w total rest st1 with
      | (st2, .error e) => (st2, .error e)
      | (st2, .ok tl) => (st2, .ok ((i, bg) :: tl))

/-- The per-beat full-page image loop (main.py lines 342-432): failures are
absorbed per beat as a null image and the loop never aborts.  The snapshot is
followed by an await exactly when a background prompt is present. -/
def imageLoop (w : World) (total : Nat) (bgs : List (Nat × Option String)) :
    List Nat → PipeSt → PipeSt × List (Nat × Option String)
  | [], st => (st, [])
  | i :: rest, st =>
    let bg := ((bgs.lookup i).join : Option String)
    let st1 := setStep st
      ("Generating full-page image for beat " ++ toString i ++ "/" ++ toString total)
      (30 + 30 * (i - 1) / total) bg.isSome
    let entry : Nat × Option String :=
      match bg with
      | some _ =>
        match w.imageGen i with
        | .ok p => (i, some p)
        | .error _ => (i, none)
      | none => (i, none)
    let r := imageLoop w total bgs rest st1
    (r.1, entry :: r.2)

/-- The per-language PDF loop (main.py lines 444-498): story regeneration and
PDF assembly both abort the job on failure; a PDF failure first records a
step message (line 494) and then re-raises. -/
def langLoop (w : World) (num_pages totalL : Nat) :
    List String → Nat → PipeSt → PipeSt × Except PyExc (List (String × String))
  | [], _, st => (st, .ok [])
  | lang :: rest, idx, st =>
    let st1 := setStep st
      ("Generating PDF in " ++ lang ++ " (" ++ toString (idx + 1) ++ "/" ++ toString totalL ++ ")")
      (70 + 25 * idx / totalL) true
    match author_generate_storybook num_pages (w.langLLM lang) with
    | .error e => (st1, .error e)
    | .ok _ =>
      match w.pdfGen lang with
      | .error e =>
        let st2 := pushSnap st1
          { st1.record with
            current_step := some ("PDF generation failed for " ++ lang ++ ": " ++ e.msg) }
          false
        (st2, .error e)
      | .ok path =>
        match langLoop w num_pages totalL rest (idx + 1) st1 with
        | (st2, .error e) => (st2, .error e)
        | (st2, .ok tl) => (st2, .ok ((lang, path) :: tl))

/-- The tail of the job body after the character phase (main.py lines
308-498): prompt loop, image loop, language loop. -/
def bodyRest (w : World) (inp : Inputs) (languages : List String)
    (stored : List Character) (cover : Option String) (sbC : StoryBook)
    (selected attempted : List String) (st : PipeSt) :
    PipeSt × Extras × Except PyExc (List (String × String)) :=
  let ex : Extras :=
    ⟨languages, stored, some sbC, sbC.characters, selected, cover, attempted⟩
  let total := sbC.beats.length
  match promptLoop w total (List.range' 1 total) st with
  | (st9, .error e) => (st9, ex, .error e)
  | (st9, .ok bgs) =>
    let st10 := setStep st9 "Image prompts generated" 30 false
    let ir := imageLoop w total bgs (List.range' 1 total) st10
    let st12 := setStep ir.1 "Full-page images generated" 60 false
    match langLoop w inp.num_pages languages.length languages 0 st12 with
    | (st13, .error e) => (st13, ex, .error e)
    | (st13, .ok fps) => (st13, ex, .ok fps)

/-- The story phase and everything after it (main.py lines 126-498), entered
with the trace state after the progress-7 update.  A story phase failure
records the transient `error` status (lines 140-151, with no await before the
terminal write that follows) and aborts; later aborts propagate to the outer
handler in `run`. -/
def bodyStory (w : World) (inp : Inputs) (languages : List String)
    (stored : List Character) (st3 : PipeSt) :
    PipeSt × Extras × Except PyExc (List (String × String)) :=
  let ex0 : Extras := ⟨languages, stored, none, [], [], none, []⟩
  match author_generate_storybook inp.num_pages w.storyLLM with
  | .error e =>
    match e with
    | .timeoutErr _ =>
      let msg := "Story generation timed out after 300.0s"
      let st4 := pushSnap st3
        { st3.record with status := "error", error_message := some msg } false
      (st4, ex0, .error (.exc "RuntimeError" msg))
    | .exc ty m =>
      let st4 := pushSnap st3
        { st3.record with
          status := "error",
          error_message := some ("Story generation failed: " ++ m) } false
      (st4, ex0, .error (.exc ty m))
  | .ok sb0 =>
    let st5 := setStep st3 "Base story generated" 10 false
    let st6 := setStep st5 "Generating cover image" 11 true
    let cover := match w.coverGen with | .ok p => some p | .error _ => none
    let st7 := setStep st6 "Extracting main characters" 12 true
    let extracted := match w.extractChars with | .ok cs => cs | .error _ => []
    let rr := resolveRoster stored extracted
    let chars := rr.1
    let selected := rr.2
    if chars.isEmpty then
      bodyRest w inp languages stored cover { sb0 with characters := [] } selected [] st7
    else
      let sb1 := ensure_characters_in_beats { sb0 with characters := chars } chars selected
      let rg := refGenLoop w selected chars
      let st8 := setStep st7 "Generating character reference images" 14 (! rg.2.isEmpty)
      let sb2 := { sb1 with characters := rg.1 }
      bodyRest w inp languages stored cover sb2 selected rg.2 st8

/-- The body of `process_storybook_job` (main.py lines 76-506), from language
defaulting to the end of the PDF loop, threading the record trace. -/
def jobBody (w : World) (inp : Inputs) (st0 : PipeSt) :
    PipeSt × Extras × Except PyExc (List (String × String)) :=
  let languages := dedupKeepFirst (if inp.languages.isEmpty then ["en"] else inp.languages)
  let st1 := pushSnap st0
    { st0.record with status := "processing", progress := 0, current_step := some "Initializing" }
    false
  let stored := if inp.character_ids.isEmpty then [] else loadStored w inp.character_ids
  let st2 :=
    if inp.character_ids.isEmpty then st1
    else setStep st1 "Loading selected characters" 5 false
  let first_language := languages.headD "en"
  let st3 := setStep st2 ("Generating story in " ++ first_language ++ " (for images)") 7 true
  bodyStory w inp languages stored st3

/-- The result of one whole job run: the final trace and the extras. -/
structure RunOut where
  st : PipeSt
  ex : Extras
deriving Repr

/-- The registry entry created by the submission endpoint (main.py lines
599-607). -/
def initialRecord (jobId : String) : JobRecord :=
  ⟨jobId, "pending", none, none, 0, none, none⟩

/-- One whole run of `process_storybook_job` including the outer exception
handlers (main.py lines 500-531): success writes the one terminal
`completed` record, a propagated exception writes the one terminal `failed`
record; both are followed by the task end, hence observable. -/
def run (w : World) (inp : Inputs) : RunOut :=
  let r0 := initialRecord inp.job_id
  let st0 : PipeSt := ⟨r0, [⟨r0, true⟩]⟩
  match jobBody w inp st0 with
  | (st, ex, .ok fps) =>
    let fin := pushSnap st
      { st.record with
        status := "completed",
        file_paths := some fps,
        file_path := fps.lookup (ex.languages.headD "en"),
        progress := 100,
        current_step := some ("Completed (" ++ toString ex.languages.length ++ " language(s))") }
      true
    ⟨fin, ex⟩
  | (st, ex, .error e) =>
    match e with
    | .timeoutErr m =>
      let fin := pushSnap st
        { st.record with
          status := "failed",
          error_message := some ("Operation timed out: " ++ m),
          current_step := some "Failed: Timeout" } true
      ⟨fin, ex⟩
    | .exc ty m =>
      let fin := pushSnap st
        { st.record with
          status := "failed",
          error_message := some ("Error processing job: " ++ m),
          current_step := some ("Failed: " ++ ty) } true
      ⟨fin, ex⟩

/-! ## The job submission endpoint (src/src/main.py lines 541-611) -/

/-- An HTTPException raised by the endpoint. -/
structure HTTPExc where
  status_code : Nat
  detail : String
deriving Repr, DecidableEq

/-- The background task scheduled by the endpoint, with its arguments. -/
structure Scheduled where
  job_id : String
  theme : Option String
  num_pages : Nat
  style : Option String
  languages : List String
  pod_ready : Bool
  character_ids : List String
deriving Repr, DecidableEq

/-- The supported language codes (main.py line 577). -/
def valid_languages : List String := ["en", "es"]

/-- The `/generate` endpoint `generate_storybook` (main.py lines 541-611):
validate `num_pages`, then the languages, then the character ids; only then
create the pending job record, register it and schedule the background task.
`num_pages` is an integer query parameter, hence `Int`. -/
def generate_storybook_endpoint (charExistsOnDisk : String → Bool) (jobId : String)
    (theme : Option String) (num_pages : Int) (style : Option String)
    (languages : Option (List String)) (pod_ready : Bool)
    (character_ids : Option (List String))
    (registry : List (String × JobRecord)) :
    Except HTTPExc (List (String × JobRecord) × Scheduled) :=
  if num_pages < 1 ∨ 10 < num_pages then
    .error ⟨400, "num_pages must be between 1 and 10"⟩
  else
    let langs := match languages with | none => ["en"] | some ls => ls
    let invalid := langs.filter (fun l => ! valid_languages.contains l)
    if ! invalid.isEmpty then
      .error ⟨400, "Invalid languages"⟩
    else
      let langs2 := dedupKeepFirst langs
      let ids := character_ids.getD []
      let badId := if ids.isEmpty then none else ids.find? (fun cid => ! charExistsOnDisk cid)
      match badId with
      | some cid => .error ⟨404, ("Character not found: " ++ cid)⟩
      | none =>
        .ok (registry ++ [(jobId, initialRecord jobId)],
             ⟨jobId, theme, num_pages.toNat, style, langs2, pod_ready, ids⟩)

/-! ## Proof infrastructure: trace invariants -/

/-- Boolean non-decreasing predicate on a list of naturals. -/
def isMonotone : List Nat → Bool
  | [] => true
  | [_] => true
  | a :: b :: rest => decide (a ≤ b) && isMonotone (b :: rest)

/-- The four public status values of the specification. -/
def okStatus (s : String) : Prop :=
  s = "pending" ∨ s = "processing" ∨ s = "completed" ∨ s = "failed"

/-- The progress values along a trace. -/
def progOf (tr : List Snap) : List Nat :=
  tr.map (fun s => s.record.progress)

lemma isMonotone_concat {l : List Nat} {x : Nat}
    (h : isMonotone l = true) (hle : l.getLastD 0 ≤ x) :
    isMonotone (l ++ [x]) = true := by
  induction l with
  | nil => simp [isMonotone]
  | cons a tl ih =>
    cases tl with
    | nil =>
      have ha : ([a] : List Nat).getLastD 0 = a := rfl
      rw [ha] at hle
      simp [isMonotone, hle]
    | cons b tl2 =>
      simp only [isMonotone, Bool.and_eq_true, decide_eq_true_eq] at h
      have hlast : (b :: tl2).getLastD 0 ≤ x := by
        simpa [List.getLastD_cons] using hle
      have := ih h.2 hlast
      simp only [List.cons_append, isMonotone, Bool.and_eq_true, decide_eq_true_eq]
      exact ⟨h.1, by simpa using this⟩

lemma getLastD_concat_nat (l : List Nat) (x : Nat) :
    (l ++ [x]).getLastD 0 = x := by
  simp [List.getLastD_concat]

/-- Invariant maintained by the job body on the evolving trace. -/
structure TInv (st : PipeSt) : Prop where
  mono : isMonotone (progOf st.trace) = true
  lastp : (progOf st.trace).getLastD 0 = st.record.progress
  bound : ∀ p ∈ progOf st.trace, p ≤ 100
  pbound : st.record.progress ≤ 100
  obs : ∀ sn ∈ st.trace, sn.yieldsAfter = true → okStatus sn.record.status
  noTerm : ∀ sn ∈ st.trace, sn.record.status ≠ "completed" ∧ sn.record.status ≠ "failed"

lemma progOf_append (a b : List Snap) : progOf (a ++ b) = progOf a ++ progOf b := by
  simp [progOf]

lemma pushSnap_TInv {st : PipeSt} {r : JobRecord} {y : Bool}
    (h : TInv st) (hp : st.record.progress ≤ r.progress) (hb : r.progress ≤ 100)
    (hs : y = true → okStatus r.status)
    (ht : r.status ≠ "completed" ∧ r.status ≠ "failed") :
    TInv (pushSnap st r y) := by
  constructor
  · show isMonotone (progOf (st.trace ++ [⟨r, y⟩])) = true
    rw [progOf_append]
    exact isMonotone_concat h.mono (by rw [h.lastp]; exact hp)
  · show (progOf (st.trace ++ [⟨r, y⟩])).getLastD 0 = r.progress
    rw [progOf_append]
    exact getLastD_concat_nat _ _
  · intro p hpmem
    simp only [pushSnap, progOf_append] at hpmem
    rcases List.mem_append.mp hpmem with h1 | h2
    · exact h.bound p h1
    · simp only [progOf, List.map_cons, List.map_nil, List.mem_singleton] at h2
      omega
  · exact hb
  · intro sn hsn hy
    simp only [pushSnap] at hsn
    rcases List.mem_append.mp hsn with h1 | h2
    · exact h.obs sn h1 hy
    · simp only [List.mem_singleton] at h2
      subst h2
      exact hs hy
  · intro sn hsn
    simp only [pushSnap] at hsn
    rcases List.mem_append.mp hsn with h1 | h2
    · exact h.noTerm sn h1
    · simp only [List.mem_singleton] at h2
      subst h2
      exact ht

lemma setStep_record (st : PipeSt) (s : String) (p : Nat) (y : Bool) :
    (setStep st s p y).record =
      { st.record with current_step := some s, progress := p } := rfl

lemma setStep_TInv {st : PipeSt} {s : String} {p : Nat} {y : Bool}
    (h : TInv st) (hst : st.record.status = "processing")
    (hp : st.record.progress ≤ p) (hb : p ≤ 100) :
    TInv (setStep st s p y) := by
  refine pushSnap_TInv h hp hb (fun _ => ?_) ?_
  · right; left; exact hst
  · constructor <;> simp [hst]

lemma pushSnap_pref (st : PipeSt) (r : JobRecord) (y : Bool) :
    st.trace <+: (pushSnap st r y).trace :=
  ⟨[⟨r, y⟩], rfl⟩

lemma setStep_pref (st : PipeSt) (s : String) (p : Nat) (y : Bool) :
    st.trace <+: (setStep st s p y).trace :=
  pushSnap_pref _ _ _

lemma mulDiv_le (k x t : Nat) (h : x ≤ t) : k * x / t ≤ k := by
  rcases Nat.eq_zero_or_pos t with ht | ht
  · subst ht; simp
  · have h2 : k * t / t = k := by
      rw [Nat.mul_div_assoc k (dvd_refl t), Nat.div_self ht, Nat.mul_one]
    calc k * x / t ≤ k * t / t := Nat.div_le_div_right (Nat.mul_le_mul_left _ h)
      _ = k := h2

lemma mulDiv_mono (k : Nat) {x y : Nat} (t : Nat) (h : x ≤ y) :
    k * x / t ≤ k * y / t :=
  Nat.div_le_div_right (Nat.mul_le_mul_left _ h)

lemma setStep_status (st : PipeSt) (s : String) (p : Nat) (y : Bool) :
    (setStep st s p y).record.status = st.record.status := rfl

lemma setStep_progress (st : PipeSt) (s : String) (p : Nat) (y : Bool) :
    (setStep st s p y).record.progress = p := rfl

lemma promptLoop_inv (w : World) (total : Nat) :
    ∀ n a st, TInv st → st.record.status = "processing" →
      a + n ≤ total + 1 → 1 ≤ a →
      st.record.progress ≤ 14 + 16 * (a - 1) / total →
      TInv (promptLoop w total (List.range' a n) st).1 ∧
      (promptLoop w total (List.range' a n) st).1.record.status = "processing" ∧
      (promptLoop w total (List.range' a n) st).1.record.progress ≤ 30 ∧
      st.trace <+: (promptLoop w total (List.range' a n) st).1.trace := by
  intro n
  induction n with
  | zero =>
    intro a st h hst hn ha hprog
    have hb := mulDiv_le 16 (a - 1) total (by omega)
    exact ⟨h, hst, le_trans hprog (by omega), List.prefix_refl _⟩
  | succ n ih =>
    intro a st h hst hn ha hprog
    rw [List.range'_succ]
    simp only [promptLoop]
    have hple : 14 + 16 * (a - 1) / total ≤ 30 := by
      have := mulDiv_le 16 (a - 1) total (by omega)
      omega
    set st1 := setStep st
      ("Generating image prompts for beat " ++ toString a ++ "/" ++ toString total)
      (14 + 16 * (a - 1) / total) true with hst1
    have h1 : TInv st1 := setStep_TInv h hst hprog (by omega)
    have h1st : st1.record.status = "processing" := by
      rw [hst1, setStep_status]; exact hst
    have h1p : st1.record.progress = 14 + 16 * (a - 1) / total := by
      rw [hst1, setStep_progress]
    cases hpg : w.promptGen a with
    | error e =>
      refine ⟨h1, h1st, ?_, by rw [hst1]; exact setStep_pref _ _ _ _⟩
      rw [h1p]; exact hple
    | ok bg =>
      have hrec := ih (a + 1) st1 h1 h1st (by omega) (by omega)
        (by rw [h1p]; simp only [Nat.add_sub_cancel]
            exact Nat.add_le_add_left (mulDiv_mono 16 total (by omega)) 14)
      have hpre : st.trace <+: (promptLoop w total (List.range' (a + 1) n) st1).1.trace := by
        refine List.IsPrefix.trans ?_ hrec.2.2.2
        rw [hst1]; exact setStep_pref _ _ _ _
      rcases hpl : promptLoop w total (List.range' (a + 1) n) st1 with ⟨st2, r⟩
      rw [hpl] at hrec hpre
      cases r with
      | error e => exact ⟨hrec.1, hrec.2.1, hrec.2.2.1, hpre⟩
      | ok tl => exact ⟨hrec.1, hrec.2.1, hrec.2.2.1, hpre⟩

lemma imageLoop_inv (w : World) (total : Nat) (bgs : List (Nat × Option String)) :
    ∀ n a st, TInv st → st.record.status = "processing" →
      a + n ≤ total + 1 → 1 ≤ a →
      st.record.progress ≤ 30 + 30 * (a - 1) / total →
      TInv (imageLoop w total bgs (List.range' a n) st).1 ∧
      (imageLoop w total bgs (List.range' a n) st).1.record.status = "processing" ∧
      (imageLoop w total bgs (List.range' a n) st).1.record.progress ≤ 60 ∧
      st.trace <+: (imageLoop w total bgs (List.range' a n) st).1.trace := by
  intro n
  induction n with
  | zero =>
    intro a st h hst hn ha hprog
    have hb := mulDiv_le 30 (a - 1) total (by omega)
    exact ⟨h, hst, le_trans hprog (by omega), List.prefix_refl _⟩
  | succ n ih =>
    intro a st h hst hn ha hprog
    rw [List.range'_succ]
    simp only [imageLoop]
    have hple : 30 + 30 * (a - 1) / total ≤ 60 := by
      have := mulDiv_le 30 (a - 1) total (by omega)
      omega
    set st1 := setStep st
      ("Generating full-page image for beat " ++ toString a ++ "/" ++ toString total)
      (30 + 30 * (a - 1) / total) (((bgs.lookup a).join).isSome) with hst1
    have h1 : TInv st1 := setStep_TInv h hst hprog (by omega)
    have h1st : st1.record.status = "processing" := by
      rw [hst1, setStep_status]; exact hst
    have h1p : st1.record.progress = 30 + 30 * (a - 1) / total := by
      rw [hst1, setStep_progress]
    have hrec := ih (a + 1) st1 h1 h1st (by omega) (by omega)
      (by rw [h1p]; simp only [Nat.add_sub_cancel]
          exact Nat.add_le_add_left (mulDiv_mono 30 total (by omega)) 30)
    refine ⟨hrec.1, hrec.2.1, hrec.2.2.1, ?_⟩
    refine List.IsPrefix.trans ?_ hrec.2.2.2
    rw [hst1]; exact setStep_pref _ _ _ _

lemma langLoop_inv (w : World) (np totalL : Nat) :
    ∀ langs idx st, TInv st → st.record.status = "processing" →
      idx + langs.length ≤ totalL →
      st.record.progress ≤ 70 + 25 * idx / totalL →
      TInv (langLoop w np totalL langs idx st).1 ∧
      (langLoop w np totalL langs idx st).1.record.status = "processing" ∧
      st.trace <+: (langLoop w np totalL langs idx st).1.trace := by
  intro langs
  induction langs with
  | nil =>
    intro idx st h hst _ _
    exact ⟨h, hst, List.prefix_refl _⟩
  | cons lang rest ih =>
    intro idx st h hst hn hprog
    simp only [langLoop]
    have hidx : idx < totalL := by
      simp only [List.length_cons] at hn; omega
    have hple : 70 + 25 * idx / totalL ≤ 100 := by
      have := mulDiv_le 25 idx totalL (le_of_lt hidx)
      omega
    set st1 := setStep st
      ("Generating PDF in " ++ lang ++ " (" ++ toString (idx + 1) ++ "/" ++ toString totalL ++ ")")
      (70 + 25 * idx / totalL) true with hst1
    have h1 : TInv st1 := setStep_TInv h hst hprog hple
    have h1st : st1.record.status = "processing" := by
      rw [hst1, setStep_status]; exact hst
    cases hauth : author_generate_storybook np (w.langLLM lang) with
    | error e =>
      exact ⟨h1, h1st, by rw [hst1]; exact setStep_pref _ _ _ _⟩
    | ok sbL =>
      cases hpdf : w.pdfGen lang with
      | error e =>
        refine ⟨pushSnap_TInv h1 le_rfl h1.pbound (by simp) ?_, h1st, ?_⟩
        · constructor <;> simp [h1st]
        · rw [hst1]
          exact (setStep_pref _ _ _ _).trans (pushSnap_pref _ _ _)
      | ok path =>
        have hrec := ih (idx + 1) st1 h1 h1st
          (by simp only [List.length_cons] at hn; omega)
          (by show st1.record.progress ≤ _
              rw [hst1, setStep_progress]
              exact Nat.add_le_add_left (mulDiv_mono 25 totalL (by omega)) 70)
        have hpre : st.trace <+: (langLoop w np totalL rest (idx + 1) st1).1.trace := by
          refine List.IsPrefix.trans ?_ hrec.2.2
          rw [hst1]; exact setStep_pref _ _ _ _
        rcases hll : langLoop w np totalL rest (idx + 1) st1 with ⟨st2, r⟩
        rw [hll] at hrec hpre
        cases r with
        | error e => exact ⟨hrec.1, hrec.2.1, hpre⟩
        | ok tl => exact ⟨hrec.1, hrec.2.1, hpre⟩

lemma bodyRest_inv (w : World) (inp : Inputs) (languages : List String)
    (stored : List Character) (cover : Option String) (sbC : StoryBook)
    (selected attempted : List String) (st : PipeSt)
    (h : TInv st) (hst : st.record.status = "processing")
    (hprog : st.record.progress ≤ 14) :
    TInv (bodyRest w inp languages stored cover sbC selected attempted st).1 ∧
    (bodyRest w inp languages stored cover sbC selected attempted st).1.record.status = "processing" ∧
    st.trace <+: (bodyRest w inp languages stored cover sbC selected attempted st).1.trace := by
  simp only [bodyRest]
  have hpl := promptLoop_inv w sbC.beats.length sbC.beats.length 1 st h hst
    (by omega) (by omega) (by simpa using hprog)
  rcases hplr : promptLoop w sbC.beats.length (List.range' 1 sbC.beats.length) st with ⟨st9, r⟩
  rw [hplr] at hpl
  cases r with
  | error e => exact ⟨hpl.1, hpl.2.1, hpl.2.2.2⟩
  | ok bgs =>
    dsimp only
    have h10 : TInv (setStep st9 "Image prompts generated" 30 false) :=
      setStep_TInv hpl.1 hpl.2.1 hpl.2.2.1 (by omega)
    have h10st : (setStep st9 "Image prompts generated" 30 false).record.status = "processing" := by
      rw [setStep_status]; exact hpl.2.1
    have hil := imageLoop_inv w sbC.beats.length bgs sbC.beats.length 1
      (setStep st9 "Image prompts generated" 30 false) h10 h10st
      (by omega) (by omega) (by rw [setStep_progress]; simp)
    rcases hilr : imageLoop w sbC.beats.length bgs (List.range' 1 sbC.beats.length)
      (setStep st9 "Image prompts generated" 30 false) with ⟨st11, imgs⟩
    rw [hilr] at hil
    dsimp only
    have h12 : TInv (setStep st11 "Full-page images generated" 60 false) :=
      setStep_TInv hil.1 hil.2.1 hil.2.2.1 (by omega)
    have h12st : (setStep st11 "Full-page images generated" 60 false).record.status = "processing" := by
      rw [setStep_status]; exact hil.2.1
    have hll := langLoop_inv w inp.num_pages languages.length languages 0
      (setStep st11 "Full-page images generated" 60 false) h12 h12st
      (by omega) (by rw [setStep_progress]; simp)
    have hpre : st.trace <+:
        (langLoop w inp.num_pages languages.length languages 0
          (setStep st11 "Full-page images generated" 60 false)).1.trace := by
      refine hpl.2.2.2.trans ?_
      refine (setStep_pref st9 "Image prompts generated" 30 false).trans ?_
      have p2 : (setStep st9 "Image prompts generated" 30 false).trace <+: st11.trace := by
        have := hil.2.2.2
        exact this
      refine p2.trans ?_
      exact (setStep_pref st11 "Full-page images generated" 60 false).trans hll.2.2
    rcases hllr : langLoop w inp.num_pages languages.length languages 0
      (setStep st11 "Full-page images generated" 60 false) with ⟨st13, r2⟩
    rw [hllr] at hll hpre
    cases r2 with
    | error e => exact ⟨hll.1, hll.2.1, hpre⟩
    | ok fps => exact ⟨hll.1, hll.2.1, hpre⟩

lemma bodyStory_inv (w : World) (inp : Inputs) (languages : List String)
    (stored : List Character) (st3 : PipeSt)
    (h : TInv st3) (hst : st3.record.status = "processing")
    (hprog : st3.record.progress ≤ 10) :
    TInv (bodyStory w inp languages stored st3).1 ∧
    st3.trace <+: (bodyStory w inp languages stored st3).1.trace := by
  simp only [bodyStory]
  cases hauth : author_generate_storybook inp.num_pages w.storyLLM with
  | error e =>
    cases e with
    | timeoutErr m =>
      dsimp only
      refine ⟨pushSnap_TInv h le_rfl h.pbound (by simp)
        (by constructor <;> show ("error" : String) ≠ _ <;> decide), ?_⟩
      exact pushSnap_pref _ _ _
    | exc ty m =>
      dsimp only
      refine ⟨pushSnap_TInv h le_rfl h.pbound (by simp)
        (by constructor <;> show ("error" : String) ≠ _ <;> decide), ?_⟩
      exact pushSnap_pref _ _ _
  | ok sb0 =>
    dsimp only
    have h5 : TInv (setStep st3 "Base story generated" 10 false) :=
      setStep_TInv h hst hprog (by omega)
    have h5st : (setStep st3 "Base story generated" 10 false).record.status = "processing" := by
      rw [setStep_status]; exact hst
    have h6 : TInv (setStep (setStep st3 "Base story generated" 10 false) "Generating cover image" 11 true) :=
      setStep_TInv h5 h5st (by rw [setStep_progress]; omega) (by omega)
    have h6st : (setStep (setStep st3 "Base story generated" 10 false) "Generating cover image" 11 true).record.status = "processing" := by
      rw [setStep_status]; exact h5st
    have h7 : TInv (setStep (setStep (setStep st3 "Base story generated" 10 false) "Generating cover image" 11 true) "Extracting main characters" 12 true) :=
      setStep_TInv h6 h6st (by rw [setStep_progress]; omega) (by omega)
    have h7st : (setStep (setStep (setStep st3 "Base story generated" 10 false) "Generating cover image" 11 true) "Extracting main characters" 12 true).record.status = "processing" := by
      rw [setStep_status]; exact h6st
    have h7p : (setStep (setStep (setStep st3 "Base story generated" 10 false) "Generating cover image" 11 true) "Extracting main characters" 12 true).record.progress = 12 := by
      rw [setStep_progress]
    have hpre7 : st3.trace <+: (setStep (setStep (setStep st3 "Base story generated" 10 false) "Generating cover image" 11 true) "Extracting main characters" 12 true).trace :=
      (setStep_pref _ _ _ _).trans ((setStep_pref _ _ _ _).trans (setStep_pref _ _ _ _))
    split
    · have hbr := bodyRest_inv w inp languages stored
        (match w.coverGen with | .ok p => some p | .error _ => none)
        { sb0 with characters := [] }
        (resolveRoster stored (match w.extractChars with | .ok cs => cs | .error _ => [])).2 []
        _ h7 h7st (by rw [h7p]; omega)
      exact ⟨hbr.1, hpre7.trans hbr.2.2⟩
    · have h8 : TInv (setStep (setStep (setStep (setStep st3 "Base story generated" 10 false) "Generating cover image" 11 true) "Extracting main characters" 12 true) "Generating character reference images" 14
          (! (refGenLoop w (resolveRoster stored (match w.extractChars with | .ok cs => cs | .error _ => [])).2 (resolveRoster stored (match w.extractChars with | .ok cs => cs | .error _ => [])).1).2.isEmpty)) :=
        setStep_TInv h7 h7st (by rw [h7p]; omega) (by omega)
      have h8st := setStep_status (setStep (setStep (setStep st3 "Base story generated" 10 false) "Generating cover image" 11 true) "Extracting main characters" 12 true) "Generating character reference images" 14
          (! (refGenLoop w (resolveRoster stored (match w.extractChars with | .ok cs => cs | .error _ => [])).2 (resolveRoster stored (match w.extractChars with | .ok cs => cs | .error _ => [])).1).2.isEmpty)
      rw [h7st] at h8st
      have hbr := bodyRest_inv w inp languages stored
        (match w.coverGen with | .ok p => some p | .error _ => none)
        { ensure_characters_in_beats
            { sb0 with characters := (resolveRoster stored (match w.extractChars with | .ok cs => cs | .error _ => [])).1 }
            (resolveRoster stored (match w.extractChars with | .ok cs => cs | .error _ => [])).1
            (resolveRoster stored (match w.extractChars with | .ok cs => cs | .error _ => [])).2 with
          characters := (refGenLoop w
            (resolveRoster stored (match w.extractChars with | .ok cs => cs | .error _ => [])).2
            (resolveRoster stored (match w.extractChars with | .ok cs => cs | .error _ => [])).1).1 }
        (resolveRoster stored (match w.extractChars with | .ok cs => cs | .error _ => [])).2
        (refGenLoop w
          (resolveRoster stored (match w.extractChars with | .ok cs => cs | .error _ => [])).2
          (resolveRoster stored (match w.extractChars with | .ok cs => cs | .error _ => [])).1).2
        (setStep (setStep (setStep (setStep st3 "Base story generated" 10 false) "Generating cover image" 11 true) "Extracting main characters" 12 true) "Generating character reference images" 14
          (! (refGenLoop w (resolveRoster stored (match w.extractChars with | .ok cs => cs | .error _ => [])).2 (resolveRoster stored (match w.extractChars with | .ok cs => cs | .error _ => [])).1).2.isEmpty))
        h8 h8st (by rw [setStep_progress])
      exact ⟨hbr.1, (hpre7.trans (setStep_pref _ _ _ _)).trans hbr.2.2⟩

lemma jobBody_inv (w : World) (inp : Inputs) (st0 : PipeSt)
    (h : TInv st0) (hp : st0.record.progress = 0) :
    TInv (jobBody w inp st0).1 ∧
    (pushSnap st0 { st0.record with
        status := "processing", progress := 0,
        current_step := some "Initializing" } false).trace
      <+: (jobBody w inp st0).1.trace := by
  simp only [jobBody]
  have h1 : TInv (pushSnap st0 { st0.record with
      status := "processing", progress := 0,
      current_step := some "Initializing" } false) :=
    pushSnap_TInv h (by rw [hp]) (by show (0:Nat) ≤ 100; omega) (by simp)
      (by constructor <;> show ("processing" : String) ≠ _ <;> decide)
  have h1st : (pushSnap st0 { st0.record with
      status := "processing", progress := 0,
      current_step := some "Initializing" } false).record.status = "processing" := rfl
  have h1p : (pushSnap st0 { st0.record with
      status := "processing", progress := 0,
      current_step := some "Initializing" } false).record.progress = 0 := rfl
  by_cases hcid : inp.character_ids.isEmpty
  · simp only [hcid, if_true]
    have h3 : TInv (setStep (pushSnap st0 { st0.record with
        status := "processing", progress := 0,
        current_step := some "Initializing" } false)
        ("Generating story in " ++ (dedupKeepFirst (if inp.languages.isEmpty then ["en"] else inp.languages)).headD "en" ++ " (for images)") 7 true) :=
      setStep_TInv h1 h1st (by show (0:Nat) ≤ 7; omega) (by omega)
    have h3st := setStep_status (pushSnap st0 { st0.record with
        status := "processing", progress := 0,
        current_step := some "Initializing" } false)
        ("Generating story in " ++ (dedupKeepFirst (if inp.languages.isEmpty then ["en"] else inp.languages)).headD "en" ++ " (for images)") 7 true
    rw [h1st] at h3st
    have hbs := bodyStory_inv w inp (dedupKeepFirst (if inp.languages.isEmpty then ["en"] else inp.languages)) [] _ h3 h3st (by show (7:Nat) ≤ 10; omega)
    exact ⟨hbs.1, (setStep_pref _ _ _ _).trans hbs.2⟩
  · simp only [hcid, if_false]
    have h2 : TInv (setStep (pushSnap st0 { st0.record with
        status := "processing", progress := 0,
        current_step := some "Initializing" } false) "Loading selected characters" 5 false) :=
      setStep_TInv h1 h1st (by show (0:Nat) ≤ 5; omega) (by omega)
    have h2st := setStep_status (pushSnap st0 { st0.record with
        status := "processing", progress := 0,
        current_step := some "Initializing" } false) "Loading selected characters" 5 false
    rw [h1st] at h2st
    have h3 : TInv (setStep (setStep (pushSnap st0 { st0.record with
        status := "processing", progress := 0,
        current_step := some "Initializing" } false) "Loading selected characters" 5 false)
        ("Generating story in " ++ (dedupKeepFirst (if inp.languages.isEmpty then ["en"] else inp.languages)).headD "en" ++ " (for images)") 7 true) :=
      setStep_TInv h2 h2st (by show (5:Nat) ≤ 7; omega) (by omega)
    have h3st := setStep_status (setStep (pushSnap st0 { st0.record with
        status := "processing", progress := 0,
        current_step := some "Initializing" } false) "Loading selected characters" 5 false)
        ("Generating story in " ++ (dedupKeepFirst (if inp.languages.isEmpty then ["en"] else inp.languages)).headD "en" ++ " (for images)") 7 true
    rw [h2st] at h3st
    have hbs := bodyStory_inv w inp (dedupKeepFirst (if inp.languages.isEmpty then ["en"] else inp.languages)) (loadStored w inp.character_ids) _ h3 h3st (by show (7:Nat) ≤ 10; omega)
    exact ⟨hbs.1, ((setStep_pref _ _ _ _).trans (setStep_pref _ _ _ _)).trans hbs.2⟩

lemma TInv_init (j : String) :
    TInv ⟨initialRecord j, [⟨initialRecord j, true⟩]⟩ := by
  constructor
  · rfl
  · rfl
  · intro p hp
    simp only [progOf, List.map_cons, List.map_nil, List.mem_singleton] at hp
    subst hp
    show (0 : Nat) ≤ 100
    omega
  · show (0 : Nat) ≤ 100
    omega
  · intro sn hsn _
    simp only [List.mem_singleton] at hsn
    subst hsn
    left
    rfl
  · intro sn hsn
    simp only [List.mem_singleton] at hsn
    subst hsn
    constructor <;> show ("pending" : String) ≠ _ <;> decide

lemma run_facts (w : World) (inp : Inputs) :
    ∃ bst fin,
      (run w inp).st.trace = bst.trace ++ [⟨fin, true⟩] ∧
      (run w inp).st.record = fin ∧
      TInv bst ∧
      ((fin.status = "completed" ∧ fin.progress = 100) ∨
        (fin.status = "failed" ∧ fin.progress = bst.record.progress)) ∧
      [⟨initialRecord inp.job_id, true⟩,
       ⟨{ initialRecord inp.job_id with
          status := "processing", progress := 0,
          current_step := some "Initializing" }, false⟩] <+: bst.trace := by
  have hbody := jobBody_inv w inp ⟨initialRecord inp.job_id, [⟨initialRecord inp.job_id, true⟩]⟩
    (TInv_init inp.job_id) rfl
  simp only [run]
  rcases hb : jobBody w inp ⟨initialRecord inp.job_id, [⟨initialRecord inp.job_id, true⟩]⟩
    with ⟨st, ex, r⟩
  rw [hb] at hbody
  cases r with
  | ok fps =>
    dsimp only
    exact ⟨st, _, rfl, rfl, hbody.1, Or.inl ⟨rfl, rfl⟩, hbody.2⟩
  | error e =>
    cases e with
    | timeoutErr m =>
      dsimp only
      exact ⟨st, _, rfl, rfl, hbody.1, Or.inr ⟨rfl, rfl⟩, hbody.2⟩
    | exc ty m =>
      dsimp only
      exact ⟨st, _, rfl, rfl, hbody.1, Or.inr ⟨rfl, rfl⟩, hbody.2⟩

/-! ## Concrete worlds and inputs used by witnesses and counterexamples -/

/-- A concrete story beat. -/
def mkBeat (t : String) : StoryBeat := ⟨t, "scene " ++ t, ["thing"]⟩

/-- A three-beat parsed LLM story. -/
def sb3 : StoryBook :=
  ⟨"T", [mkBeat "one", mkBeat "two", mkBeat "three"], [], none, none, none⟩

/-- A concrete stored character. -/
def luna : Character :=
  ⟨"Luna", some "mouse", "a small grey mouse with bright eyes",
   ["round ears"], [], none, some 42, none⟩

/-- A world in which every external call succeeds. -/
def wOK : World where
  loadChar := fun _ => .found luna (some "characters/chr_luna/image.png")
  storyLLM := .ok sb3
  coverGen := .ok "cover.png"
  extractChars := .ok []
  pathExists := fun _ => true
  refImageGen := fun n => .ok ("ref_" ++ n ++ ".png")
  promptGen := fun _ => .ok (some "bg prompt")
  imageGen := fun i => .ok ("img" ++ toString i ++ ".png")
  langLLM := fun _ => .ok sb3
  pdfGen := fun l => .ok ("pdf_" ++ l ++ ".pdf")

/-- A three-page request in two languages with no pinned characters. -/
def inpBasic : Inputs := ⟨"job1", some "adventure", 3, none, ["en", "es"], []⟩

/-- A five-page request against the three-beat story. -/
def inpFive : Inputs := ⟨"job2", none, 5, none, ["en"], []⟩

/-- A three-page request pinning the same stored character twice. -/
def inpDup : Inputs := ⟨"job3", none, 3, none, ["en"], ["chr_luna", "chr_luna"]⟩

/-- A one-language three-page request pinning one stored character. -/
def inpPinned : Inputs := ⟨"job4", none, 3, none, ["en"], ["chr_luna"]⟩

/-- The all-success world with cover generation failing on every provider. -/
def wNoCover : World :=
  { wOK with coverGen := .error (.exc "RuntimeError" "All providers failed") }

/-- C5: within a single job, the sequence of values written to the progress
field (read off the trace of record states) is monotonically non-decreasing,
starts at 0 at creation, and every written value is at most 100 - for every
world of external outcomes, hence for every number of beats and of requested
languages. -/
theorem C5_progress_monotone (w : World) (inp : Inputs) :
    isMonotone (progOf (run w inp).st.trace) = true ∧
    (progOf (run w inp).st.trace).head? = some 0 ∧
    ∀ p ∈ progOf (run w inp).st.trace, p ≤ 100 := by
  obtain ⟨bst, fin, htr, hrec, hinv, hfin, hpre⟩ := run_facts w inp
  refine ⟨?_, ?_, ?_⟩
  · rw [htr, progOf_append]
    refine isMonotone_concat hinv.mono ?_
    rw [hinv.lastp]
    show bst.record.progress ≤ fin.progress
    rcases hfin with ⟨_, hp⟩ | ⟨_, hp⟩
    · rw [hp]; exact hinv.pbound
    · rw [hp]
  · obtain ⟨t, ht⟩ := hpre
    rw [htr, ← ht]
    rfl
  · intro p hp
    rw [htr, progOf_append] at hp
    rcases List.mem_append.mp hp with h1 | h2
    · exact hinv.bound p h1
    · simp only [progOf, List.map_cons, List.map_nil, List.mem_singleton] at h2
      subst h2
      rcases hfin with ⟨_, hp2⟩ | ⟨_, hp2⟩
      · rw [hp2]
      · rw [hp2]; exact hinv.pbound

/-- C5 witness: the monotonicity and bound facts applied at one concrete run
with three beats and two languages; the membership hypothesis of the bound is
discharged at the concrete written value 100. -/
theorem C5_progress_monotone_witness :
    isMonotone (progOf (run wOK inpBasic).st.trace) = true ∧
    100 ∈ progOf (run wOK inpBasic).st.trace ∧ 100 ≤ 100 :=
  ⟨(C5_progress_monotone wOK inpBasic).1, by decide,
   (C5_progress_monotone wOK inpBasic).2.2 100 (by decide)⟩

/-- C4: at every observable point (a snapshot after which the job task
reaches an await, so that the asyncio scheduler can run the status endpoint,
plus the final state) the status field holds one of the four values pending,
processing, completed, failed; the trace starts with pending then processing
when the task starts; exactly the last snapshot carries a terminal value, so
exactly one of completed or failed is reached exactly once and the status
never changes afterwards.  The transient `error` value written by the story
failure handler (main.py lines 144 and 150) is not observable: no await
separates it from the terminal failed write. -/
theorem C4_status_lifecycle (w : World) (inp : Inputs) :
    (∀ sn ∈ (run w inp).st.trace, sn.yieldsAfter = true → okStatus sn.record.status) ∧
    ((run w inp).st.trace.map (fun sn => sn.record.status)).get? 0 = some "pending" ∧
    ((run w inp).st.trace.map (fun sn => sn.record.status)).get? 1 = some "processing" ∧
    ((run w inp).st.record.status = "completed" ∨ (run w inp).st.record.status = "failed") ∧
    ((run w inp).st.trace.map (fun sn => sn.record.status)).getLast? =
      some (run w inp).st.record.status ∧
    ∀ sn ∈ (run w inp).st.trace.dropLast,
      sn.record.status ≠ "completed" ∧ sn.record.status ≠ "failed" := by
  obtain ⟨bst, fin, htr, hrec, hinv, hfin, hpre⟩ := run_facts w inp
  have hfin4 : okStatus fin.status := by
    rcases hfin with ⟨hs, _⟩ | ⟨hs, _⟩
    · right; right; left; exact hs
    · right; right; right; exact hs
  refine ⟨?_, ?_, ?_, ?_, ?_, ?_⟩
  · intro sn hsn hy
    rw [htr] at hsn
    rcases List.mem_append.mp hsn with h1 | h2
    · exact hinv.obs sn h1 hy
    · simp only [List.mem_singleton] at h2
      subst h2
      exact hfin4
  · obtain ⟨t, ht⟩ := hpre
    rw [htr, ← ht]
    rfl
  · obtain ⟨t, ht⟩ := hpre
    rw [htr, ← ht]
    rfl
  · rw [hrec]
    rcases hfin with ⟨hs, _⟩ | ⟨hs, _⟩
    · left; exact hs
    · right; exact hs
  · rw [htr, hrec, List.map_append]
    exact List.getLast?_concat _
  · intro sn hsn
    rw [htr, List.dropLast_concat] at hsn
    exact hinv.noTerm sn hsn

/-- C4 witness: the lifecycle facts applied at one concrete successful run;
the hypotheses about a trace member are discharged at the concrete terminal
snapshot, which is observable and carries the completed status. -/
theorem C4_status_lifecycle_witness :
    okStatus "completed" ∧
    ((run wOK inpBasic).st.trace.map (fun sn => sn.record.status)).get? 0 = some "pending" := by
  constructor
  · have h := (C4_status_lifecycle wOK inpBasic).1
      ⟨(run wOK inpBasic).st.record, true⟩ (by decide) rfl
    have hs : (run wOK inpBasic).st.record.status = "completed" := by decide
    rw [hs] at h
    exact h
  · exact (C4_status_lifecycle wOK inpBasic).2.1

lemma author_ok_length {n : Nat} {r : Except PyExc StoryBook} {sb : StoryBook}
    (h : author_generate_storybook n r = .ok sb) : sb.beats.length = n := by
  cases r with
  | error e => cases e <;> simp [author_generate_storybook] at h
  | ok sb0 =>
    simp only [author_generate_storybook] at h
    by_cases h1 : sb0.beats.length = n
    · rw [if_pos h1] at h
      cases h
      exact h1
    · rw [if_neg h1] at h
      by_cases h2 : n < sb0.beats.length
      · rw [if_pos h2] at h
        cases h
        simp [List.length_take]
        omega
      · rw [if_neg h2] at h
        cases h

lemma ensure_beats_length (sb : StoryBook) (chars : List Character)
    (sel : List String) :
    (ensure_characters_in_beats sb chars sel).beats.length = sb.beats.length := by
  simp only [ensure_characters_in_beats]
  split
  · rfl
  · simp [List.enum]

lemma bodyRest_ex (w : World) (inp : Inputs) (languages : List String)
    (stored : List Character) (cover : Option String) (sbC : StoryBook)
    (selected attempted : List String) (st : PipeSt) :
    (bodyRest w inp languages stored cover sbC selected attempted st).2.1 =
      ⟨languages, stored, some sbC, sbC.characters, selected, cover, attempted⟩ := by
  simp only [bodyRest]
  split
  · rfl
  · split <;> rfl

lemma jobBody_base (w : World) (inp : Inputs) (st0 : PipeSt) :
    ((∃ e, (jobBody w inp st0).2.2 = .error e) ∧ (jobBody w inp st0).2.1.baseStory = none) ∨
    ∃ sb, (jobBody w inp st0).2.1.baseStory = some sb ∧ sb.beats.length = inp.num_pages := by
  simp only [jobBody, bodyStory]
  cases hauth : author_generate_storybook inp.num_pages w.storyLLM with
  | error e =>
    cases e <;> (dsimp only; left; exact ⟨⟨_, rfl⟩, rfl⟩)
  | ok sb0 =>
    have hlen := author_ok_length hauth
    dsimp only
    right
    split <;> split <;> rw [bodyRest_ex] <;> refine ⟨_, rfl, ?_⟩
    · simpa using hlen
    · show (ensure_characters_in_beats _ _ _).beats.length = inp.num_pages
      rw [ensure_beats_length]
      exact hlen
    · simpa using hlen
    · show (ensure_characters_in_beats _ _ _).beats.length = inp.num_pages
      rw [ensure_beats_length]
      exact hlen

lemma jobBody_author_error (w : World) (inp : Inputs) (st0 : PipeSt)
    (h : ∃ e0, author_generate_storybook inp.num_pages w.storyLLM = .error e0) :
    ∃ e, (jobBody w inp st0).2.2 = .error e := by
  simp only [jobBody, bodyStory]
  obtain ⟨e0, he⟩ := h
  rw [he]
  cases e0 <;> exact ⟨_, rfl⟩

lemma run_status_of_error (w : World) (inp : Inputs)
    (h : ∃ e, (jobBody w inp ⟨initialRecord inp.job_id, [⟨initialRecord inp.job_id, true⟩]⟩).2.2 = .error e) :
    (run w inp).st.record.status = "failed" := by
  simp only [run]
  obtain ⟨e, he⟩ := h
  rcases hb : jobBody w inp ⟨initialRecord inp.job_id, [⟨initialRecord inp.job_id, true⟩]⟩
    with ⟨st, ex, r⟩
  rw [hb] at he
  simp only at he
  subst he
  cases e <;> rfl

lemma run_ex_eq (w : World) (inp : Inputs) :
    (run w inp).ex = (jobBody w inp ⟨initialRecord inp.job_id, [⟨initialRecord inp.job_id, true⟩]⟩).2.1 := by
  simp only [run]
  rcases jobBody w inp ⟨initialRecord inp.job_id, [⟨initialRecord inp.job_id, true⟩]⟩
    with ⟨st, ex, r⟩
  cases r with
  | ok fps => rfl
  | error e => cases e <;> rfl

lemma run_completed_ok (w : World) (inp : Inputs)
    (h : (run w inp).st.record.status = "completed") :
    ∃ fps, (jobBody w inp ⟨initialRecord inp.job_id, [⟨initialRecord inp.job_id, true⟩]⟩).2.2 = .ok fps := by
  by_contra hc
  push_neg at hc
  rcases hb : (jobBody w inp ⟨initialRecord inp.job_id, [⟨initialRecord inp.job_id, true⟩]⟩).2.2
    with e | fps
  · have hf := run_status_of_error w inp ⟨e, hb⟩
    rw [hf] at h
    exact absurd h (by decide)
  · exact hc fps hb

/-- C1: for every requested page count, a job that reaches Completed has a
base story with exactly `num_pages` beats.  The author agent keeps exactly
the first `num_pages` beats whenever the provider returns at least that many
(deterministic truncation), and fails when it returns fewer; in the latter
case the whole job transitions to Failed instead of padding the story. -/
theorem C1_beat_count :
    (∀ (n : Nat) (raw : StoryBook),
      (n ≤ raw.beats.length →
        author_generate_storybook n (.ok raw) = .ok { raw with beats := raw.beats.take n }) ∧
      (raw.beats.length < n →
        ∃ e, author_generate_storybook n (.ok raw) = .error e)) ∧
    (∀ (w : World) (inp : Inputs),
      (run w inp).st.record.status = "completed" →
      ∃ sb, (run w inp).ex.baseStory = some sb ∧ sb.beats.length = inp.num_pages) ∧
    (∀ (w : World) (inp : Inputs) (raw : StoryBook),
      w.storyLLM = .ok raw → raw.beats.length < inp.num_pages →
      (run w inp).st.record.status = "failed") := by
  refine ⟨?_, ?_, ?_⟩
  · intro n raw
    constructor
    · intro hle
      simp only [author_generate_storybook]
      by_cases h1 : raw.beats.length = n
      · rw [if_pos h1]
        subst h1
        rw [List.take_length]
      · rw [if_neg h1, if_pos (by omega)]
    · intro hlt
      simp only [author_generate_storybook]
      rw [if_neg (by omega), if_neg (by omega)]
      exact ⟨_, rfl⟩
  · intro w inp h
    obtain ⟨fps, hok⟩ := run_completed_ok w inp h
    rcases jobBody_base w inp ⟨initialRecord inp.job_id, [⟨initialRecord inp.job_id, true⟩]⟩
      with ⟨⟨e, he⟩, _⟩ | ⟨sb, hsb, hlen⟩
    · rw [he] at hok
      cases hok
    · rw [run_ex_eq]
      exact ⟨sb, hsb, hlen⟩
  · intro w inp raw hraw hlt
    refine run_status_of_error w inp (jobBody_author_error w inp _ ?_)
    rw [hraw]
    simp only [author_generate_storybook]
    rw [if_neg (by omega), if_neg (by omega)]
    exact ⟨_, rfl⟩

/-- C1 witness: at the concrete all-success world, a five-page request over a
three-beat provider story drives the job to Failed, and the three-page
request completes with exactly three beats; the truncation law is applied at
a concrete four-beat story trimmed to three. -/
theorem C1_beat_count_witness :
    ((run wOK inpFive).st.record.status = "failed") ∧
    (∃ sb, (run wOK inpBasic).ex.baseStory = some sb ∧ sb.beats.length = 3) ∧
    author_generate_storybook 3 (.ok ⟨"T", [mkBeat "a", mkBeat "b", mkBeat "c", mkBeat "d"], [], none, none, none⟩) =
      .ok ⟨"T", [mkBeat "a", mkBeat "b", mkBeat "c"], [], none, none, none⟩ := by
  refine ⟨?_, ?_, ?_⟩
  · exact C1_beat_count.2.2 wOK inpFive sb3 rfl (by decide)
  · exact C1_beat_count.2.1 wOK inpBasic (by decide)
  · exact C1_beat_count.1 3 ⟨"T", [mkBeat "a", mkBeat "b", mkBeat "c", mkBeat "d"], [], none, none, none⟩ |>.1 (by decide)

lemma promptLoop_congr {w1 w2 : World} (h : w1.promptGen = w2.promptGen) (total : Nat) :
    ∀ idxs st, promptLoop w1 total idxs st = promptLoop w2 total idxs st := by
  intro idxs
  induction idxs with
  | nil => intro st; rfl
  | cons i rest ih =>
    intro st
    simp only [promptLoop, h, ih]

lemma imageLoop_congr {w1 w2 : World} (h : w1.imageGen = w2.imageGen)
    (total : Nat) (bgs : List (Nat × Option String)) :
    ∀ idxs st, imageLoop w1 total bgs idxs st = imageLoop w2 total bgs idxs st := by
  intro idxs
  induction idxs with
  | nil => intro st; rfl
  | cons i rest ih =>
    intro st
    simp only [imageLoop, h, ih]

lemma langLoop_congr {w1 w2 : World} (hL : w1.langLLM = w2.langLLM)
    (hP : w1.pdfGen = w2.pdfGen) (np totalL : Nat) :
    ∀ langs idx st, langLoop w1 np totalL langs idx st = langLoop w2 np totalL langs idx st := by
  intro langs
  induction langs with
  | nil => intro idx st; rfl
  | cons lang rest ih =>
    intro idx st
    simp only [langLoop, hL, hP, ih]

lemma loadStored_congr {w1 w2 : World} (h : w1.loadChar = w2.loadChar)
    (ids : List String) : loadStored w1 ids = loadStored w2 ids := by
  simp only [loadStored, h]

lemma refGenLoop_congr {w1 w2 : World} (hpe : w1.pathExists = w2.pathExists)
    (hri : w1.refImageGen = w2.refImageGen) (sel : List String)
    (chars : List Character) : refGenLoop w1 sel chars = refGenLoop w2 sel chars := by
  have hs : refSkip w1 sel = refSkip w2 sel := by
    funext c
    simp only [refSkip, hpe]
  have hu : refUpdate w1 sel = refUpdate w2 sel := by
    funext c
    simp only [refUpdate, hs, hri]
  simp only [refGenLoop, hs, hu]

lemma bodyRest_parts {w1 w2 : World} (hpg : w1.promptGen = w2.promptGen)
    (hig : w1.imageGen = w2.imageGen) (hL : w1.langLLM = w2.langLLM)
    (hP : w1.pdfGen = w2.pdfGen) (inp : Inputs) (langs : List String)
    (stored : List Character) (cover1 cover2 : Option String) (sbC : StoryBook)
    (sel att : List String) (st : PipeSt) :
    (bodyRest w1 inp langs stored cover1 sbC sel att st).1 =
      (bodyRest w2 inp langs stored cover2 sbC sel att st).1 ∧
    (bodyRest w1 inp langs stored cover1 sbC sel att st).2.2 =
      (bodyRest w2 inp langs stored cover2 sbC sel att st).2.2 := by
  simp only [bodyRest]
  rw [promptLoop_congr hpg]
  rcases promptLoop w2 sbC.beats.length (List.range' 1 sbC.beats.length) st with ⟨st9, r⟩
  cases r with
  | error e => exact ⟨rfl, rfl⟩
  | ok bgs =>
    dsimp only
    rw [imageLoop_congr hig, langLoop_congr hL hP]
    rcases langLoop w2 inp.num_pages langs.length langs 0
      (setStep (imageLoop w2 sbC.beats.length bgs (List.range' 1 sbC.beats.length)
        (setStep st9 "Image prompts generated" 30 false)).1
        "Full-page images generated" 60 false) with ⟨st13, r2⟩
    cases r2 with
    | error e => exact ⟨rfl, rfl⟩
    | ok fps => exact ⟨rfl, rfl⟩

lemma bodyStory_parts {w1 w2 : World} (hS : w1.storyLLM = w2.storyLLM)
    (hE : w1.extractChars = w2.extractChars) (hpe : w1.pathExists = w2.pathExists)
    (hri : w1.refImageGen = w2.refImageGen) (hpg : w1.promptGen = w2.promptGen)
    (hig : w1.imageGen = w2.imageGen) (hL : w1.langLLM = w2.langLLM)
    (hP : w1.pdfGen = w2.pdfGen) (inp : Inputs) (langs : List String)
    (stored : List Character) (st3 : PipeSt) :
    (bodyStory w1 inp langs stored st3).1 = (bodyStory w2 inp langs stored st3).1 ∧
    (bodyStory w1 inp langs stored st3).2.2 = (bodyStory w2 inp langs stored st3).2.2 := by
  simp only [bodyStory]
  rw [hS]
  cases hauth : author_generate_storybook inp.num_pages w2.storyLLM with
  | error e => cases e <;> exact ⟨rfl, rfl⟩
  | ok sb0 =>
    dsimp only
    rw [hE, refGenLoop_congr hpe hri]
    split
    · exact bodyRest_parts hpg hig hL hP inp langs stored _ _ _ _ _ _
    · exact bodyRest_parts hpg hig hL hP inp langs stored _ _ _ _ _ _

lemma jobBody_parts {w1 w2 : World} (hlc : w1.loadChar = w2.loadChar)
    (hS : w1.storyLLM = w2.storyLLM) (hE : w1.extractChars = w2.extractChars)
    (hpe : w1.pathExists = w2.pathExists) (hri : w1.refImageGen = w2.refImageGen)
    (hpg : w1.promptGen = w2.promptGen) (hig : w1.imageGen = w2.imageGen)
    (hL : w1.langLLM = w2.langLLM) (hP : w1.pdfGen = w2.pdfGen)
    (inp : Inputs) (st0 : PipeSt) :
    (jobBody w1 inp st0).1 = (jobBody w2 inp st0).1 ∧
    (jobBody w1 inp st0).2.2 = (jobBody w2 inp st0).2.2 := by
  simp only [jobBody]
  rw [loadStored_congr hlc]
  exact bodyStory_parts hS hE hpe hri hpg hig hL hP inp _ _ _

lemma jobBody_languages (w : World) (inp : Inputs) (st0 : PipeSt) :
    (jobBody w inp st0).2.1.languages =
      dedupKeepFirst (if inp.languages.isEmpty then ["en"] else inp.languages) := by
  simp only [jobBody, bodyStory]
  cases hauth : author_generate_storybook inp.num_pages w.storyLLM with
  | error e => cases e <;> rfl
  | ok sb0 =>
    dsimp only
    split <;> split <;> rw [bodyRest_ex]

/-- The cover call influences only the recorded cover path: two worlds that
differ only in the cover outcome produce identical record traces. -/
lemma run_cover_irrelevant (w : World) (inp : Inputs) (e : PyExc) (p : String) :
    (run { w with coverGen := .error e } inp).st =
      (run { w with coverGen := .ok p } inp).st := by
  have hparts := @jobBody_parts { w with coverGen := .error e }
    { w with coverGen := .ok p } rfl rfl rfl rfl rfl rfl rfl rfl rfl
    inp ⟨initialRecord inp.job_id, [⟨initialRecord inp.job_id, true⟩]⟩
  have hl1 := jobBody_languages { w with coverGen := .error e } inp
    ⟨initialRecord inp.job_id, [⟨initialRecord inp.job_id, true⟩]⟩
  have hl2 := jobBody_languages { w with coverGen := .ok p } inp
    ⟨initialRecord inp.job_id, [⟨initialRecord inp.job_id, true⟩]⟩
  simp only [run]
  rcases hb1 : jobBody { w with coverGen := .error e } inp
    ⟨initialRecord inp.job_id, [⟨initialRecord inp.job_id, true⟩]⟩ with ⟨st1, ex1, r1⟩
  rcases hb2 : jobBody { w with coverGen := .ok p } inp
    ⟨initialRecord inp.job_id, [⟨initialRecord inp.job_id, true⟩]⟩ with ⟨st2, ex2, r2⟩
  rw [hb1, hb2] at hparts
  rw [hb1] at hl1
  rw [hb2] at hl2
  simp only at hparts hl1 hl2
  obtain ⟨hst, hr⟩ := hparts
  have hlang : ex1.languages = ex2.languages := by rw [hl1, hl2]
  subst hst
  rw [← hr]
  cases r1 with
  | ok fps =>
    dsimp only
    rw [hlang]
  | error e1 => cases e1 <;> rfl

lemma jobBody_cover_none (w : World) (inp : Inputs) (st0 : PipeSt) (e : PyExc)
    (he : w.coverGen = .error e) :
    (jobBody w inp st0).2.1.coverPath = none := by
  simp only [jobBody, bodyStory]
  cases hauth : author_generate_storybook inp.num_pages w.storyLLM with
  | error e0 => cases e0 <;> rfl
  | ok sb0 =>
    dsimp only
    split <;> split <;> rw [bodyRest_ex] <;>
      show (match w.coverGen with | .ok p => some p | .error _ => none) = none <;>
      rw [he]

/-- C7: a cover-image failure is non-fatal.  The job records a null cover
path, the whole record trace (statuses, progress, steps - hence all later
phases) is exactly what it would have been had the cover call succeeded, and
a concrete run with the cover failing on all providers still reaches
Completed with both PDFs attached and cover equal to null. -/
theorem C7_cover_failure_nonfatal :
    (∀ (w : World) (inp : Inputs) (e : PyExc), w.coverGen = .error e →
      (run w inp).ex.coverPath = none) ∧
    (∀ (w : World) (inp : Inputs) (e : PyExc) (p : String),
      (run { w with coverGen := .error e } inp).st =
        (run { w with coverGen := .ok p } inp).st) ∧
    ((run wNoCover inpBasic).st.record.status = "completed" ∧
     (run wNoCover inpBasic).ex.coverPath = none ∧
     (run wNoCover inpBasic).st.record.file_paths =
       some [("en", "pdf_en.pdf"), ("es", "pdf_es.pdf")]) := by
  refine ⟨?_, ?_, ?_, ?_, ?_⟩
  · intro w inp e he
    rw [run_ex_eq]
    exact jobBody_cover_none w inp _ e he
  · intro w inp e p
    exact run_cover_irrelevant w inp e p
  · decide
  · decide
  · decide

/-- C7 witness: the null-cover law applied at the concrete world whose cover
call fails, with the failure hypothesis discharged definitionally. -/
theorem C7_cover_failure_nonfatal_witness :
    (run wNoCover inpBasic).ex.coverPath = none :=
  C7_cover_failure_nonfatal.1 wNoCover inpBasic (.exc "RuntimeError" "All providers failed") rfl

lemma rosterFold_pref (stored : List Character) :
    ∀ (ext : List Character) (acc : List Character × List String),
      acc.1 <+: (ext.foldl (rosterStep stored) acc).1 := by
  intro ext
  induction ext with
  | nil => intro acc; exact List.prefix_refl _
  | cons e rest ih =>
    intro acc
    simp only [List.foldl_cons]
    refine List.IsPrefix.trans ?_ (ih (rosterStep stored acc e))
    simp only [rosterStep]
    cases match_characters_by_similarity e stored with
    | some _ => exact List.prefix_refl _
    | none =>
      by_cases hm : strLower e.name ∈ acc.2
      · rw [if_pos hm]
      · rw [if_neg hm]
        exact ⟨[e], rfl⟩

lemma resolveRoster_stored (stored ext : List Character) :
    stored <+: (resolveRoster stored ext).1 := by
  simpa [resolveRoster] using
    rosterFold_pref stored ext (stored, stored.map (fun c => strLower c.name))

lemma refUpdate_pinned (w : World) (sel : List String) (c : Character)
    (h : strLower c.name ∈ sel) : refUpdate w sel c = c := by
  simp [refUpdate, refSkip, h]

lemma refGenLoop_pinned (w : World) (sel : List String) (chars : List Character)
    (c : Character) (hc : c ∈ chars) (h : strLower c.name ∈ sel) :
    c ∈ (refGenLoop w sel chars).1 ∧ c.name ∉ (refGenLoop w sel chars).2 := by
  constructor
  · exact List.mem_map.mpr ⟨c, hc, refUpdate_pinned w sel c h⟩
  · intro hmem
    simp only [refGenLoop, List.mem_map] at hmem
    obtain ⟨d, hd, hdn⟩ := hmem
    rw [List.mem_filter] at hd
    have hskip := hd.2
    simp only [refSkip, Bool.not_or, Bool.and_eq_true, Bool.not_eq_true'] at hskip
    have h1 := hskip.1
    simp only [decide_eq_false_iff_not] at h1
    rw [hdn] at h1
    exact h1 h

lemma jobBody_pinned (w : World) (inp : Inputs) (st0 : PipeSt) :
    ∀ c ∈ (jobBody w inp st0).2.1.storedChars,
      ((jobBody w inp st0).2.1.baseStory.isSome → c ∈ (jobBody w inp st0).2.1.roster) ∧
      c.name ∉ (jobBody w inp st0).2.1.refAttempted := by
  simp only [jobBody, bodyStory]
  cases hauth : author_generate_storybook inp.num_pages w.storyLLM with
  | error e =>
    cases e <;>
      (intro c hc
       refine ⟨fun hs => absurd hs (by simp), ?_⟩
       simp)
  | ok sb0 =>
    dsimp only
    split <;> split <;> rw [bodyRest_ex] <;> intro c hc <;> dsimp only at hc ⊢
    case isTrue h2 =>
      exact absurd hc (by simp)
    case isFalse h2 =>
      exact absurd hc (by simp)
    case isTrue h2 =>
      have hpre := resolveRoster_stored (loadStored w inp.character_ids)
        (match w.extractChars with | .ok cs => cs | .error _ => [])
      have hnil := List.isEmpty_iff.mp h2
      rw [hnil] at hpre
      rw [List.prefix_nil.mp hpre] at hc
      exact absurd hc (List.not_mem_nil c)
    case isFalse h2 =>
      have hsel : strLower c.name ∈
          (resolveRoster (loadStored w inp.character_ids)
            (match w.extractChars with | .ok cs => cs | .error _ => [])).2 :=
        List.mem_map.mpr ⟨c, hc, rfl⟩
      have hmem : c ∈ (resolveRoster (loadStored w inp.character_ids)
          (match w.extractChars with | .ok cs => cs | .error _ => [])).1 :=
        (resolveRoster_stored _ _).subset hc
      have := refGenLoop_pinned w _ _ c hmem hsel
      exact ⟨fun _ => this.1, this.2⟩

/-- C3: every loaded pinned (caller-selected) character is itself a member of
the final roster whenever the roster is formed (the story phase succeeded) -
in particular its seed and reference image path are exactly the loaded ones,
untouched by any later phase - and reference-image generation is never
attempted for it. -/
theorem C3_pinned_preserved (w : World) (inp : Inputs) (c : Character)
    (hc : c ∈ (run w inp).ex.storedChars) :
    ((run w inp).ex.baseStory.isSome → c ∈ (run w inp).ex.roster) ∧
    c.name ∉ (run w inp).ex.refAttempted := by
  rw [run_ex_eq] at hc ⊢
  exact jobBody_pinned w inp _ c hc

/-- C3 witness: the preservation law applied to the one pinned character of a
concrete run; both hypotheses are discharged by evaluation. -/
theorem C3_pinned_preserved_witness :
    { luna with reference_image_path := some "characters/chr_luna/image.png" }
      ∈ (run wOK inpPinned).ex.roster ∧
    "Luna" ∉ (run wOK inpPinned).ex.refAttempted := by
  have h := C3_pinned_preserved wOK inpPinned
    { luna with reference_image_path := some "characters/chr_luna/image.png" } (by decide)
  exact ⟨h.1 (by decide), h.2⟩

lemma refUpdate_name (w : World) (sel : List String) (c : Character) :
    (refUpdate w sel c).name = c.name := by
  unfold refUpdate
  split
  · rfl
  · cases w.refImageGen c.name <;> rfl

lemma refGenLoop_names (w : World) (sel : List String) (chars : List Character) :
    (refGenLoop w sel chars).1.map (fun c => strLower c.name) =
      chars.map (fun c => strLower c.name) := by
  simp only [refGenLoop, List.map_map]
  refine List.map_congr_left ?_
  intro c _
  show strLower (refUpdate w sel c).name = strLower c.name
  rw [refUpdate_name]

lemma rosterFold_nodup (stored : List Character) :
    ∀ (ext : List Character) (acc : List Character × List String),
      acc.2 = acc.1.map (fun c => strLower c.name) → acc.2.Nodup →
      (ext.foldl (rosterStep stored) acc).2 =
        (ext.foldl (rosterStep stored) acc).1.map (fun c => strLower c.name) ∧
      (ext.foldl (rosterStep stored) acc).2.Nodup := by
  intro ext
  induction ext with
  | nil => intro acc h1 h2; exact ⟨h1, h2⟩
  | cons e rest ih =>
    intro acc h1 h2
    simp only [List.foldl_cons]
    refine ih (rosterStep stored acc e) ?_ ?_ |>.imp id id
    all_goals
      simp only [rosterStep]
      cases match_characters_by_similarity e stored with
      | some _ => first | exact h1 | exact h2
      | none =>
        by_cases hm : strLower e.name ∈ acc.2
        · rw [if_pos hm]
          first | exact h1 | exact h2
        · rw [if_neg hm]
          first
            | (show acc.2 ++ [strLower e.name] = (acc.1 ++ [e]).map _
               rw [List.map_append, h1]
               rfl)
            | (refine List.Nodup.append h2 (List.nodup_singleton _) ?_
               intro x hx hxe
               rw [List.mem_singleton] at hxe
               subst hxe
               exact hm hx)

lemma resolveRoster_nodup (stored ext : List Character)
    (h : (stored.map (fun c => strLower c.name)).Nodup) :
    ((resolveRoster stored ext).1.map (fun c => strLower c.name)).Nodup := by
  have hf := rosterFold_nodup stored ext (stored, stored.map (fun c => strLower c.name)) rfl h
  have : (resolveRoster stored ext).1 =
      (ext.foldl (rosterStep stored) (stored, stored.map (fun c => strLower c.name))).1 := rfl
  rw [this, ← hf.1]
  exact hf.2

lemma bodyStory_stored (w : World) (inp : Inputs) (langs : List String)
    (stored : List Character) (st3 : PipeSt) :
    (bodyStory w inp langs stored st3).2.1.storedChars = stored := by
  simp only [bodyStory]
  cases hauth : author_generate_storybook inp.num_pages w.storyLLM with
  | error e => cases e <;> rfl
  | ok sb0 =>
    dsimp only
    split <;> rw [bodyRest_ex]

lemma bodyStory_nodup (w : World) (inp : Inputs) (langs : List String)
    (stored : List Character) (st3 : PipeSt)
    (h : (stored.map (fun c => strLower c.name)).Nodup) :
    ((bodyStory w inp langs stored st3).2.1.roster.map (fun c => strLower c.name)).Nodup := by
  simp only [bodyStory]
  cases hauth : author_generate_storybook inp.num_pages w.storyLLM with
  | error e => cases e <;> simp
  | ok sb0 =>
    dsimp only
    split
    · rw [bodyRest_ex]
      show ((([] : List Character)).map (fun c => strLower c.name)).Nodup
      simp
    · rw [bodyRest_ex]
      show (((refGenLoop w _ _).1).map (fun c => strLower c.name)).Nodup
      rw [refGenLoop_names]
      exact resolveRoster_nodup _ _ h

lemma jobBody_nodup (w : World) (inp : Inputs) (st0 : PipeSt)
    (h : ((jobBody w inp st0).2.1.storedChars.map (fun c => strLower c.name)).Nodup) :
    ((jobBody w inp st0).2.1.roster.map (fun c => strLower c.name)).Nodup := by
  have hb : jobBody w inp st0 =
      bodyStory w inp (dedupKeepFirst (if inp.languages.isEmpty then ["en"] else inp.languages))
        (if inp.character_ids.isEmpty then [] else loadStored w inp.character_ids)
        (setStep
          (if inp.character_ids.isEmpty then
            pushSnap st0 { st0.record with
              status := "processing", progress := 0, current_step := some "Initializing" } false
          else
            setStep (pushSnap st0 { st0.record with
              status := "processing", progress := 0, current_step := some "Initializing" } false)
              "Loading selected characters" 5 false)
          ("Generating story in " ++
            (dedupKeepFirst (if inp.languages.isEmpty then ["en"] else inp.languages)).headD "en"
            ++ " (for images)") 7 true) := rfl
  rw [hb, bodyStory_stored] at h
  rw [hb]
  exact bodyStory_nodup _ _ _ _ _ h

/-- C9 counterexample: supplying the same stored character id twice pins two
characters with the same case-insensitive name; both are appended to the
roster unconditionally, so after resolution the roster of this concrete
completed job holds two distinct members whose lowercased names coincide,
refuting the claimed invariant for caller-supplied pinned characters. -/
theorem C9_counterexample :
    (run wOK inpDup).ex.storedChars.length = 2 ∧
    (run wOK inpDup).ex.roster.map (fun c => strLower c.name) = ["luna", "luna"] ∧
    ¬ (run wOK inpDup).ex.roster.Pairwise
        (fun c1 c2 => strLower c1.name ≠ strLower c2.name) := by
  refine ⟨by decide, by decide, ?_⟩
  intro hpw
  have h2 : ((run wOK inpDup).ex.roster.map (fun c => strLower c.name)).Pairwise
      (fun a b => a ≠ b) := List.pairwise_map.mpr hpw
  rw [(by decide : (run wOK inpDup).ex.roster.map (fun c => strLower c.name) =
    ["luna", "luna"])] at h2
  simp [List.pairwise_cons] at h2

/-- C9 amended: extracted characters are never admitted under an existing
case-insensitive roster name, but pinned characters are appended without any
deduplication.  Hence the no-duplicate invariant holds exactly when the
pinned characters themselves carry pairwise distinct case-insensitive names:
under that hypothesis the whole final roster has no duplicate lowercased
name. -/
theorem C9_amended_nodup (w : World) (inp : Inputs)
    (h : ((run w inp).ex.storedChars.map (fun c => strLower c.name)).Nodup) :
    ((run w inp).ex.roster.map (fun c => strLower c.name)).Nodup := by
  rw [run_ex_eq] at h ⊢
  exact jobBody_nodup w inp _ h

/-- C9 amended witness: the no-duplicate conclusion at a concrete run with a
single pinned character, the distinctness hypothesis discharged by
evaluation. -/
theorem C9_amended_nodup_witness :
    ((run wOK inpPinned).ex.roster.map (fun c => strLower c.name)).Nodup :=
  C9_amended_nodup wOK inpPinned (by
    rw [(by decide : (run wOK inpPinned).ex.storedChars.map (fun c => strLower c.name) =
      ["luna"])]
    simp)

/-- C6: the seed assigned on reference-image generation is a pure function
of the character name - the full MD5 computation is embedded, so equality of
names yields equality of seeds by definition, within and across runs - and
every seed lies in the fixed range `[0, 2^31)` (seeds are naturals, so the
lower bound is inherent).  Two concrete evaluations pin the embedding to the
Python `hashlib.md5` reference values. -/
theorem C6_seed_deterministic_range :
    (∀ name : String, character_seed name < 2147483648) ∧
    character_seed "Luna" = 25454813 ∧
    character_seed "Sparky" = 1922324257 := by
  refine ⟨?_, by decide, by decide⟩
  intro name
  exact Nat.mod_lt _ (by norm_num)

/-- C10: the submission endpoint rejects every request whose `num_pages`
falls outside 1..10 with HTTP 400 before touching the registry or scheduling
anything, so every job that is ever registered - equivalently, every
background task ever scheduled - has a requested page count between 1
and 10. -/
theorem C10_num_pages_validation (charExistsOnDisk : String → Bool) (jobId : String)
    (theme : Option String) (num_pages : Int) (style : Option String)
    (languages : Option (List String)) (pod_ready : Bool)
    (character_ids : Option (List String)) (registry : List (String × JobRecord)) :
    ((num_pages < 1 ∨ 10 < num_pages) →
      generate_storybook_endpoint charExistsOnDisk jobId theme num_pages style
        languages pod_ready character_ids registry =
        .error ⟨400, "num_pages must be between 1 and 10"⟩) ∧
    (∀ registry2 sched,
      generate_storybook_endpoint charExistsOnDisk jobId theme num_pages style
        languages pod_ready character_ids registry = .ok (registry2, sched) →
      1 ≤ sched.num_pages ∧ sched.num_pages ≤ 10 ∧
      registry2 = registry ++ [(jobId, initialRecord jobId)] ∧
      (initialRecord jobId).status = "pending") := by
  constructor
  · intro h
    simp only [generate_storybook_endpoint]
    rw [if_pos h]
  · intro registry2 sched hok
    simp only [generate_storybook_endpoint] at hok
    by_cases h : num_pages < 1 ∨ 10 < num_pages
    · rw [if_pos h] at hok
      cases hok
    · rw [if_neg h] at hok
      push_neg at h
      split at hok
      · cases hok
      · split at hok
        · cases hok
        · cases hok
          refine ⟨?_, ?_, rfl, rfl⟩
          · show 1 ≤ num_pages.toNat
            omega
          · show num_pages.toNat ≤ 10
            omega

/-- C10 witness: the rejection law applied at the concrete out-of-range page
count 0 and the acceptance law at the concrete in-range count 5, hypotheses
discharged by evaluation. -/
theorem C10_num_pages_validation_witness :
    generate_storybook_endpoint (fun _ => true) "j" none 0 none none false none [] =
      .error ⟨400, "num_pages must be between 1 and 10"⟩ ∧
    (1 ≤ (5 : Int).toNat ∧ (5 : Int).toNat ≤ 10) := by
  constructor
  · exact (C10_num_pages_validation (fun _ => true) "j" none 0 none none false none []).1
      (by omega)
  · have h := (C10_num_pages_validation (fun _ => true) "j" none 5 none none false none []).2
      ([("j", initialRecord "j")]) ⟨"j", none, (5 : Int).toNat, none, ["en"], false, []⟩
      rfl
    exact ⟨h.1, h.2.1⟩

lemma similarityScore_den_pos (e s : Character) : 0 < (similarityScore e s).den := by
  show 0 <
    (if 0 < (featureSet e).card ∧ 0 < (featureSet s).card
      then (((featureSet e) ∩ (featureSet s)).card, ((featureSet e) ∪ (featureSet s)).card)
      else (0, 1)).2 *
    (if 0 < (keywordSet e.physical_description).card ∧ 0 < (keywordSet s.physical_description).card
      then (((keywordSet e.physical_description) ∩ (keywordSet s.physical_description)).card,
            ((keywordSet e.physical_description) ∪ (keywordSet s.physical_description)).card)
      else (0, 1)).2
  refine Nat.mul_pos ?_ ?_
  · split
    · rename_i h
      exact lt_of_lt_of_le h.1 (Finset.card_le_card Finset.subset_union_left)
    · norm_num
  · split
    · rename_i h
      exact lt_of_lt_of_le h.1 (Finset.card_le_card Finset.subset_union_left)
    · norm_num

lemma fle_iff (x y : Frac) (hx : 0 < x.den) (hy : 0 < y.den) :
    x.fle y = true ↔ x.toRat ≤ y.toRat := by
  have hx2 : (0 : ℚ) < (x.den : ℚ) := by exact_mod_cast hx
  have hy2 : (0 : ℚ) < (y.den : ℚ) := by exact_mod_cast hy
  rw [Frac.fle, decide_eq_true_eq, Frac.toRat, Frac.toRat, div_le_div_iff hx2 hy2]
  rw [← Nat.cast_mul, ← Nat.cast_mul, Nat.cast_le]

lemma flt_iff (x y : Frac) (hx : 0 < x.den) (hy : 0 < y.den) :
    x.flt y = true ↔ x.toRat < y.toRat := by
  have hx2 : (0 : ℚ) < (x.den : ℚ) := by exact_mod_cast hx
  have hy2 : (0 : ℚ) < (y.den : ℚ) := by exact_mod_cast hy
  rw [Frac.flt, decide_eq_true_eq, Frac.toRat, Frac.toRat, div_lt_div_iff hx2 hy2]
  rw [← Nat.cast_mul, ← Nat.cast_mul, Nat.cast_lt]

lemma matchFold_spec (e : Character) :
    ∀ (stored : List Character) (acc : Option Character × Frac), 0 < acc.2.den →
      0 < (stored.foldl (fun a s =>
          let sc := similarityScore e s
          if a.2.flt sc then (some s, sc) else a) acc).2.den ∧
      acc.2.toRat ≤ (stored.foldl (fun a s =>
          let sc := similarityScore e s
          if a.2.flt sc then (some s, sc) else a) acc).2.toRat ∧
      ((stored.foldl (fun a s =>
          let sc := similarityScore e s
          if a.2.flt sc then (some s, sc) else a) acc) = acc ∨
        ∃ c, (stored.foldl (fun a s =>
          let sc := similarityScore e s
          if a.2.flt sc then (some s, sc) else a) acc).1 = some c ∧ c ∈ stored ∧
          (similarityScore e c).toRat = (stored.foldl (fun a s =>
            let sc := similarityScore e s
            if a.2.flt sc then (some s, sc) else a) acc).2.toRat) ∧
      ∀ s ∈ stored, (similarityScore e s).toRat ≤ (stored.foldl (fun a s =>
          let sc := similarityScore e s
          if a.2.flt sc then (some s, sc) else a) acc).2.toRat := by
  intro stored
  induction stored with
  | nil =>
    intro acc hacc
    exact ⟨hacc, le_refl _, Or.inl rfl, by simp⟩
  | cons a rest ih =>
    intro acc hacc
    simp only [List.foldl_cons]
    by_cases hup : acc.2.flt (similarityScore e a) = true
    · have hstep : (let sc := similarityScore e a
        if acc.2.flt sc then (some a, sc) else acc) = (some a, similarityScore e a) := by
        simp only [hup, if_true]
      rw [hstep]
      have hd : 0 < (some a, similarityScore e a).2.den := similarityScore_den_pos e a
      obtain ⟨ihd, ihm, ihc, ihmax⟩ := ih (some a, similarityScore e a) hd
      refine ⟨ihd, ?_, ?_, ?_⟩
      · refine le_trans (le_of_lt ?_) ihm
        exact (flt_iff acc.2 (similarityScore e a) hacc (similarityScore_den_pos e a)).mp hup
      · rcases ihc with heq | ⟨c, hc1, hc2, hc3⟩
        · right
          exact ⟨a, by rw [heq], List.mem_cons_self a rest, by rw [heq]⟩
        · right
          exact ⟨c, hc1, List.mem_cons_of_mem a hc2, hc3⟩
      · intro s hs
        rcases List.mem_cons.mp hs with h1 | h2
        · subst h1
          exact ihm
        · exact ihmax s h2
    · have hstep : (let sc := similarityScore e a
        if acc.2.flt sc then (some a, sc) else acc) = acc := by
        simp only [Bool.not_eq_true] at hup
        simp only [hup, Bool.false_eq_true, if_false]
      rw [hstep]
      obtain ⟨ihd, ihm, ihc, ihmax⟩ := ih acc hacc
      refine ⟨ihd, ihm, ?_, ?_⟩
      · rcases ihc with heq | ⟨c, hc1, hc2, hc3⟩
        · exact Or.inl heq
        · exact Or.inr ⟨c, hc1, List.mem_cons_of_mem a hc2, hc3⟩
      · intro s hs
        rcases List.mem_cons.mp hs with h1 | h2
        · subst h1
          refine le_trans ?_ ihm
          have := (flt_iff acc.2 (similarityScore e s) hacc (similarityScore_den_pos e s))
          rw [Bool.not_eq_true] at hup
          by_contra hcon
          push_neg at hcon
          rw [← this] at hcon
          rw [hup] at hcon
          cases hcon
        · exact ihmax s h2

/-- An extracted character for the C2 scenario. -/
def cAlpha : Character := ⟨"Alpha", some "mouse", "", [], [], none, none, none⟩

/-- A second extracted character of the same species. -/
def cBeta : Character := ⟨"Beta", some "mouse", "", [], [], none, none, none⟩

/-- C2 counterexample: with no pinned characters, the extracted character
Beta scores exactly 40 - the merge threshold - against the previously
admitted extracted character Alpha (species exact match), yet the resolution
loop admits both: the similarity comparison is run only against the stored
(pinned) list, which is empty here, so Beta is not merged despite a best
score of at least 40 against a previously admitted roster member. -/
theorem C2_counterexample :
    (40 : ℚ) ≤ (similarityScore cBeta cAlpha).toRat ∧
    match_characters_by_similarity cBeta [] = none ∧
    (resolveRoster [] [cAlpha, cBeta]).1 = [cAlpha, cBeta] := by
  refine ⟨?_, by decide, by decide⟩
  have h : similarityScore cBeta cAlpha = ⟨40, 1⟩ := by decide
  rw [h]
  norm_num [Frac.toRat]

/-- C2 amended: each extracted character is scored with the weighted rubric
against every stored (pinned) character only - previously admitted extracted
characters are never scored, they only block admission on exact
case-insensitive name equality - and it is merged into the best-scoring
stored character exactly when that best score is at least 40. -/
lemma matchFold_props (e : Character) (stored : List Character) :
    0 < (matchFold e stored).2.den ∧
    (matchFold e stored = (none, ⟨0, 1⟩) ∨
      ∃ c, (matchFold e stored).1 = some c ∧ c ∈ stored ∧
        (similarityScore e c).toRat = (matchFold e stored).2.toRat) ∧
    ∀ s ∈ stored, (similarityScore e s).toRat ≤ (matchFold e stored).2.toRat := by
  have h := matchFold_spec e stored (none, ⟨0, 1⟩) (by norm_num)
  exact ⟨h.1, h.2.2.1, h.2.2.2⟩

theorem C2_similarity_merge_law (e : Character) (stored : List Character) :
    ((match_characters_by_similarity e stored).isSome ↔
      40 ≤ (matchFold e stored).2.toRat) ∧
    ∀ c, match_characters_by_similarity e stored = some c →
      c ∈ stored ∧
      (similarityScore e c).toRat = (matchFold e stored).2.toRat ∧
      ∀ s ∈ stored, (similarityScore e s).toRat ≤ (matchFold e stored).2.toRat := by
  obtain ⟨hden, hcase, hmax⟩ := matchFold_props e stored
  by_cases hemp : stored.isEmpty
  · have hnil : stored = [] := List.isEmpty_iff.mp hemp
    subst hnil
    have hres : match_characters_by_similarity e [] = none := rfl
    have h2 : (matchFold e []).2 = ⟨0, 1⟩ := rfl
    constructor
    · rw [hres, h2]
      constructor
      · intro h
        simp at h
      · intro h
        norm_num [Frac.toRat] at h
    · intro c hc
      rw [hres] at hc
      cases hc
  · by_cases hfle : (Frac.mk 40 1).fle (matchFold e stored).2 = true
    · have h40 : (40 : ℚ) ≤ (matchFold e stored).2.toRat := by
        have := (fle_iff ⟨40, 1⟩ (matchFold e stored).2 (by norm_num) hden).mp hfle
        rw [Frac.toRat] at this
        norm_num at this
        exact this
      have hres : match_characters_by_similarity e stored = (matchFold e stored).1 := by
        simp only [match_characters_by_similarity]
        rw [if_neg hemp, if_pos hfle]
      rcases hcase with heq | ⟨c0, hc1, hc2, hc3⟩
      · exfalso
        rw [heq] at h40
        norm_num [Frac.toRat] at h40
      · constructor
        · rw [hres, hc1]
          simp only [Option.isSome_some, true_iff]
          exact h40
        · intro c hc
          rw [hres, hc1] at hc
          cases hc
          exact ⟨hc2, hc3, hmax⟩
    · have hres : match_characters_by_similarity e stored = none := by
        simp only [match_characters_by_similarity]
        rw [if_neg hemp, if_neg hfle]
      constructor
      · rw [hres]
        simp only [Option.isSome_none, Bool.false_eq_true, false_iff, not_le]
        by_contra hcon
        push_neg at hcon
        have hfle2 := (fle_iff ⟨40, 1⟩ (matchFold e stored).2 (by norm_num) hden).mpr
          (by rw [Frac.toRat]; norm_num; exact hcon)
        exact hfle hfle2
      · intro c hc
        rw [hres] at hc
        cases hc

/-- C2 amended witness: the merge law applied at one extracted character and
a one-element stored list whose similarity score is 40; the `some` hypothesis
is discharged by evaluation. -/
theorem C2_similarity_merge_law_witness :
    cAlpha ∈ [cAlpha] ∧
    (similarityScore cBeta cAlpha).toRat = (matchFold cBeta [cAlpha]).2.toRat := by
  have h := (C2_similarity_merge_law cBeta [cAlpha]).2 cAlpha (by decide)
  exact ⟨h.1, h.2.1⟩

lemma mem_dropLast_of_get? {α : Type} {l : List α} {i : Nat} {p q : α}
    (hp : l.get? i = some p) (hq : l.get? (i + 1) = some q) : p ∈ l.dropLast := by
  have hi1 : i + 1 < l.length := List.get?_eq_some.mp hq |>.1
  have : (l.take (l.length - 1)).get? i = some p := by
    rw [List.get?_take (by omega)]
    exact hp
  rw [← List.dropLast_eq_take] at this
  exact List.get?_mem this

lemma go_head_mem (attempt : String → GenOutcome) (last p : String) (rest : List String) :
    p ∈ (llm_generate_go attempt last (p :: rest)).1 := by
  simp only [llm_generate_go]
  cases attempt p with
  | success s =>
    dsimp only
    exact List.mem_singleton_self p
  | timeout =>
    dsimp only
    by_cases h : p = last
    · rw [if_pos h]
      exact List.mem_singleton_self p
    · rw [if_neg h]
      exact List.mem_cons_self p _
  | failure ty m =>
    dsimp only
    by_cases h : p = last
    · rw [if_pos h]
      exact List.mem_singleton_self p
    · rw [if_neg h]
      exact List.mem_cons_self p _

lemma go_next_tried (attempt : String → GenOutcome) (last : String) :
    ∀ (l : List String), l.Nodup → last ∉ l.dropLast →
      ∀ (i : Nat) (p q ty m : String),
        l.get? i = some p → l.get? (i + 1) = some q →
        attempt p = .failure ty m →
        p ∈ (llm_generate_go attempt last l).1 →
        q ∈ (llm_generate_go attempt last l).1 := by
  intro l
  induction l with
  | nil =>
    intro _ _ i p q ty m hp _ _ _
    simp at hp
  | cons p0 rest ih =>
    intro hnd hdl i p q ty m hp hq hfail hmem
    have hpdl : p ∈ (p0 :: rest).dropLast := mem_dropLast_of_get? hp hq
    cases i with
    | zero =>
      have hpp : p0 = p := by simpa using hp
      subst hpp
      have hq2 : q ∈ rest := List.get?_mem (by simpa using hq)
      have hplast : p0 ≠ last := by
        intro hc
        subst hc
        exact hdl hpdl
      simp only [llm_generate_go, hfail, if_neg hplast]
      rcases rest with _ | ⟨q0, rest2⟩
      · simp at hq2
      · have hq4 : q0 = q := by simpa using hq
        subst hq4
        exact List.mem_cons_of_mem _ (go_head_mem attempt last q0 rest2)
    | succ j =>
      have hprest : p ∈ rest := List.get?_mem (by simpa using hp)
      have hpne : p0 ≠ p := by
        intro hc
        subst hc
        exact (List.nodup_cons.mp hnd).1 hprest
      have hnd2 : rest.Nodup := (List.nodup_cons.mp hnd).2
      have hdl2 : last ∉ rest.dropLast := by
        intro hc
        rcases rest with _ | ⟨r0, rest2⟩
        · simp at hc
        · exact hdl (show last ∈ p0 :: (r0 :: rest2).dropLast from List.mem_cons_of_mem _ hc)
      have hrec := ih hnd2 hdl2 j p q ty m (by simpa using hp) (by simpa using hq) hfail
      simp only [llm_generate_go] at hmem ⊢
      cases hatt : attempt p0 with
      | success s =>
        rw [hatt] at hmem
        dsimp only at hmem
        rw [List.mem_singleton] at hmem
        exact absurd hmem.symm hpne
      | timeout =>
        rw [hatt] at hmem
        dsimp only at hmem ⊢
        by_cases h : p0 = last
        · rw [if_pos h] at hmem
          rw [List.mem_singleton] at hmem
          exact absurd hmem.symm hpne
        · rw [if_neg h] at hmem ⊢
          rcases List.mem_cons.mp hmem with h1 | h2
          · exact absurd h1.symm hpne
          · exact List.mem_cons_of_mem _ (hrec h2)
      | failure ty0 m0 =>
        rw [hatt] at hmem
        dsimp only at hmem ⊢
        by_cases h : p0 = last
        · rw [if_pos h] at hmem
          rw [List.mem_singleton] at hmem
          exact absurd hmem.symm hpne
        · rw [if_neg h] at hmem ⊢
          rcases List.mem_cons.mp hmem with h1 | h2
          · exact absurd h1.symm hpne
          · exact List.mem_cons_of_mem _ (hrec h2)

lemma go_verbatim (attempt : String → GenOutcome) (last : String) :
    ∀ (l : List String), last ∉ l.dropLast →
      ∀ ty m, (llm_generate_go attempt last l).2 = .error (.verbatim ty m) →
        attempt last = .failure ty m ∧ (llm_generate_go attempt last l).1 = l := by
  intro l
  induction l with
  | nil =>
    intro _ ty m h
    simp only [llm_generate_go] at h
    cases h
  | cons p0 rest ih =>
    intro hdl ty m h
    have hdl2 : last ∉ rest.dropLast := by
      intro hc
      rcases rest with _ | ⟨r0, rest2⟩
      · simp at hc
      · exact hdl (show last ∈ p0 :: (r0 :: rest2).dropLast from List.mem_cons_of_mem _ hc)
    simp only [llm_generate_go] at h ⊢
    cases hatt : attempt p0 with
    | success s =>
      rw [hatt] at h
      cases h
    | timeout =>
      rw [hatt] at h
      dsimp only at h ⊢
      by_cases hl : p0 = last
      · rw [if_pos hl] at h
        cases h
      · rw [if_neg hl] at h ⊢
        obtain ⟨ha, htr⟩ := ih hdl2 ty m h
        refine ⟨ha, ?_⟩
        show p0 :: (llm_generate_go attempt last rest).1 = p0 :: rest
        rw [htr]
    | failure ty0 m0 =>
      rw [hatt] at h
      dsimp only at h ⊢
      by_cases hl : p0 = last
      · rw [if_pos hl] at h
        simp only [Except.error.injEq, GenError.verbatim.injEq] at h
        obtain ⟨h1, h2⟩ := h
        subst h1
        subst h2
        have hrest : rest = [] := by
          rcases rest with _ | ⟨r0, rest2⟩
          · rfl
          · exfalso
            apply hdl
            rw [← hl]
            exact List.mem_cons_self p0 _
        subst hrest
        rw [if_pos hl]
        exact ⟨by rw [← hl]; exact hatt, rfl⟩
      · rw [if_neg hl] at h ⊢
        obtain ⟨ha, htr⟩ := ih hdl2 ty m h
        refine ⟨ha, ?_⟩
        show p0 :: (llm_generate_go attempt last rest).1 = p0 :: rest
        rw [htr]

lemma providers_props (primary : String) (ufb : Bool) :
    (providers_to_try primary ufb).Nodup ∧
    (providers_to_try primary ufb).getLastD "" ∉ (providers_to_try primary ufb).dropLast := by
  cases ufb with
  | false =>
    refine ⟨List.nodup_singleton primary, ?_⟩
    show _ ∉ ([primary] : List String).dropLast
    simp
  | true =>
    by_cases h1 : primary = "groq"
    · subst h1
      exact ⟨by decide, by decide⟩
    · by_cases h2 : primary = "openai"
      · subst h2
        exact ⟨by decide, by decide⟩
      · by_cases h3 : primary = "gpt4all"
        · subst h3
          exact ⟨by decide, by decide⟩
        · by_cases h4 : primary = "mock"
          · subst h4
            exact ⟨by decide, by decide⟩
          · have hfo : fallback_order primary = [] := by
              simp [fallback_order, h1, h2, h3, h4]
            have hps : providers_to_try primary true = [primary] := by
              simp [providers_to_try, hfo]
            rw [hps]
            exact ⟨List.nodup_singleton primary, by simp⟩

/-- C8: a fatal-auth (or any other ordinary exception) on provider
candidate `i` never prevents an attempt on candidate `i+1` - whenever an
attempted candidate fails with an exception and a next candidate exists, the
next candidate is attempted too - and the error is surfaced verbatim (as the
original exception of a bare `raise`, not wrapped) exactly on the last
candidate, after every candidate in the attempt order has been tried. -/
theorem C8_fatal_auth_fallback :
    (∀ (primary : String) (ufb : Bool) (attempt : String → GenOutcome)
        (i : Nat) (p q ty m : String),
      (providers_to_try primary ufb).get? i = some p →
      (providers_to_try primary ufb).get? (i + 1) = some q →
      attempt p = .failure ty m →
      p ∈ (llm_generate primary ufb attempt).1 →
      q ∈ (llm_generate primary ufb attempt).1) ∧
    (∀ (primary : String) (ufb : Bool) (attempt : String → GenOutcome) (ty m : String),
      (llm_generate primary ufb attempt).2 = .error (.verbatim ty m) →
      attempt ((providers_to_try primary ufb).getLastD "") = .failure ty m ∧
      (llm_generate primary ufb attempt).1 = providers_to_try primary ufb) := by
  constructor
  · intro primary ufb attempt i p q ty m hp hq hfail hmem
    obtain ⟨hnd, hdl⟩ := providers_props primary ufb
    exact go_next_tried attempt _ _ hnd hdl i p q ty m hp hq hfail hmem
  · intro primary ufb attempt ty m h
    obtain ⟨hnd, hdl⟩ := providers_props primary ufb
    exact go_verbatim attempt _ _ hdl ty m h

/-- A concrete attempt function: the primary provider has an invalid
credential, every other provider succeeds. -/
def authAttempt : String → GenOutcome := fun p =>
  if p = "groq" then .failure "ValueError" "GROQ_API_KEY not found in environment"
  else .success "content"

/-- C8 witness: the fallback law applied at the concrete attempt order of the
groq primary, with the fatal-auth failure on candidate 0; all hypotheses are
discharged by evaluation, and the invocation indeed succeeds via the second
candidate. -/
theorem C8_fatal_auth_fallback_witness :
    "openai" ∈ (llm_generate "groq" true authAttempt).1 ∧
    (llm_generate "groq" true authAttempt).2 = .ok "content" := by
  constructor
  · exact C8_fatal_auth_fallback.1 "groq" true authAttempt 0 "groq" "openai"
      "ValueError" "GROQ_API_KEY not found in environment"
      (by decide) (by decide) (by decide) (by decide)
  · rfl
